import Mathlib

/-!
Verification of the RGBMatrixAnimations particle/renderer core.

This file gives a shallow embedding of the C++ sources
`src/RGBMatrixRenderer.cpp` and `src/gravityparticles.cpp` of the
Footleg/RGBMatrixAnimations repository, and proves (or refutes) the
specification claims about them.

Machine integers are modelled as `Nat` (for the unsigned types) and `Int`
(for the signed types), with explicit wrap-around at the width of the C
type wherever the original arithmetic can overflow.  The two places where
the C code computes with `float` (the 2-D velocity clip using `sqrt`, and
the `v /= -loss` bounce division) are kept as explicit function
parameters (`clip`, `bv`): every theorem below either holds for all
instantiations of these parameters or instantiates them concretely at a
point where the float branch is exact (loss = 1, i.e. bounce energy 255,
where `v /= -loss` is exact negation).
-/

namespace RGBAnim

/-- Wrap an integer to the range of a signed 16-bit value, as C assignment
to `int16_t` does on the target compilers. -/
def toInt16 (n : Int) : Int := (n + 32768) % 65536 - 32768

/-- Wrap an integer to the range of a signed 8-bit value. -/
def toInt8 (n : Int) : Int := (n + 128) % 256 - 128

/-- Wrap an integer to the range of a signed 32-bit value. -/
def toInt32 (n : Int) : Int := (n + 2147483648) % 4294967296 - 2147483648

/-- Truncate an integer to an unsigned 16-bit value, as C assignment to
`uint16_t` does. -/
def u16 (n : Int) : Nat := (n % 65536).toNat

/-! ## Colour palette (`RGBMatrixRenderer.cpp`, `getColourId` / `getColour`)

The palette is modelled as the list of entries at indices
`1 .. coloursDefined`; index 0 is always black and is kept implicit.
`coloursDefined` is the length of the list. -/

/-- The `RGB_colour` struct: three 8-bit channels. -/
structure RGB where
  r : Nat
  g : Nat
  b : Nat
deriving DecidableEq, Repr

def black : RGB := ⟨0, 0, 0⟩

/-- `maxColours` from `RGBMatrixRenderer.h` (includes black at index 0). -/
def maxColours : Nat := 16400

/-- Similarity score of the source: sum of per-channel absolute
differences (`abs(palette[i].r - colour.r) + ...`). -/
def colourScore (e c : RGB) : Nat :=
  ((e.r : Int) - c.r).natAbs + ((e.g : Int) - c.g).natAbs + ((e.b : Int) - c.b).natAbs

/-- The scan loop of `getColourId` (lines 577-599).  `track` is the value
of the loop's guard `coloursDefined < maxColours - 1`, constant during the
scan.  Arguments: remaining palette entries, current 1-based index `i`,
current `lowestScore` and `closestMatch`.  Returns
`(id, lowestScore, closestMatch)` with `id = 0` when no exact match was
found. -/
def gciLoop (c : RGB) (track : Bool) : List RGB → Nat → Nat → Nat → Nat × Nat × Nat
  | [], _, ls, cm => (0, ls, cm)
  | e :: rest, i, ls, cm =>
    if e = c then (i, 0, i)
    else if track then
      let score := colourScore e c
      if score < ls then gciLoop c track rest (i + 1) score i
      else gciLoop c track rest (i + 1) ls cm
    else gciLoop c track rest (i + 1) ls cm

/-- `RGBMatrixRenderer::getColourId`.  Returns the colour id, the new
palette, and whether the "Asked for ... but got ..." substitution message
was emitted.  `lowestScore` starts at 100 and `closestMatch` at 0, as in
the source. -/
def getColourId (pal : List RGB) (c : RGB) : Nat × List RGB × Bool :=
  if c = black then (0, pal, false)
  else
    let track : Bool := decide (pal.length < maxColours - 1)
    let r := gciLoop c track pal 1 100 0
    if r.1 = 0 then
      if pal.length < maxColours - 1 then (pal.length + 1, pal ++ [c], false)
      else (r.2.2, pal, true)
    else (r.1, pal, false)

/-- `RGBMatrixRenderer::getColour`: index 0 and out-of-range indices give
black, otherwise the palette entry. -/
def getColour (pal : List RGB) (id : Nat) : RGB :=
  if id = 0 then black
  else if id ≤ pal.length then pal.getD (id - 1) black
  else black

/-- If the requested colour matches no entry, the scan returns id 0 and
leaves `lowestScore`/`closestMatch` untouched when tracking is off. -/
lemma gciLoop_not_mem (c : RGB) (l : List RGB) (hc : c ∉ l) :
    ∀ i ls cm, gciLoop c false l i ls cm = (0, ls, cm) := by
  induction l with
  | nil => intro i ls cm; rfl
  | cons e rest ih =>
    intro i ls cm
    have he : e ≠ c := fun h => hc (h ▸ List.mem_cons_self e rest)
    have hrest : c ∉ rest := fun h => hc (List.mem_cons_of_mem e h)
    simp only [gciLoop, if_neg he, Bool.false_eq_true, if_false]
    exact ih hrest (i + 1) ls cm

/-- Whatever the tracking flag, a colour with no exact match makes the
scan return id 0. -/
lemma gciLoop_not_mem_fst (c : RGB) (t : Bool) (l : List RGB) (hc : c ∉ l) :
    ∀ i ls cm, (gciLoop c t l i ls cm).1 = 0 := by
  induction l with
  | nil => intro i ls cm; rfl
  | cons e rest ih =>
    intro i ls cm
    have he : e ≠ c := fun h => hc (h ▸ List.mem_cons_self e rest)
    have hrest : c ∉ rest := fun h => hc (List.mem_cons_of_mem e h)
    cases t with
    | false =>
      simp only [gciLoop, if_neg he, Bool.false_eq_true, if_false]
      exact ih hrest (i + 1) ls cm
    | true =>
      simp only [gciLoop, if_neg he, if_true]
      split
      · exact ih hrest (i + 1) _ _
      · exact ih hrest (i + 1) _ _

/-- If the requested colour is present, the scan returns the 1-based
position (relative to the starting index) of its first occurrence. -/
lemma gciLoop_mem (c : RGB) (t : Bool) (l : List RGB) (hc : c ∈ l) :
    ∀ i ls cm, ∃ k, k < l.length ∧ l.getD k black = c ∧
      (gciLoop c t l i ls cm).1 = i + k := by
  induction l with
  | nil => cases hc
  | cons e rest ih =>
    intro i ls cm
    by_cases he : e = c
    · refine ⟨0, by simp, by simpa using he, ?_⟩
      simp [gciLoop, he]
    · have hrest : c ∈ rest := by
        rcases List.mem_cons.mp hc with h | h
        · exact absurd h.symm he
        · exact h
      have step : ∀ ls' cm', (gciLoop c t (e :: rest) i ls' cm').1 =
          (gciLoop c t rest (i + 1) (if t then
            (if colourScore e c < ls' then colourScore e c else ls') else ls')
            (if t then (if colourScore e c < ls' then i else cm') else cm')).1 := by
        intro ls' cm'
        cases t <;> (simp [gciLoop, if_neg he]; try (split <;> rfl))
      rcases ih hrest (i + 1)
          (if t then (if colourScore e c < ls then colourScore e c else ls) else ls)
          (if t then (if colourScore e c < ls then i else cm) else cm) with
        ⟨k, hk, hget, hval⟩
      refine ⟨k + 1, by simpa using Nat.succ_lt_succ hk, by simpa using hget, ?_⟩
      rw [step ls cm, hval]
      omega

/-- C5 (code bug): with the palette at capacity
(`coloursDefined = maxColours - 1`) and no exact match, `getColourId`
returns index 0 (reserved black) with the palette unchanged and the
substitution message emitted — not the index of the closest entry.  The
closest-match tracking in the scan is guarded by
`coloursDefined < maxColours - 1`, which is false exactly when the palette
is full, although the source's own comment says the tracking is "only
needed if palette is already full". -/
theorem C5_palette_full_returns_black (pal : List RGB) (c : RGB)
    (hfull : pal.length = maxColours - 1) (hc : c ≠ black) (hmem : c ∉ pal) :
    getColourId pal c = (0, pal, true) := by
  have htrack : decide (pal.length < maxColours - 1) = false := by
    simp [hfull]
  simp only [getColourId, if_neg hc, htrack]
  rw [gciLoop_not_mem c pal hmem 1 100 0]
  simp [hfull]

/-- Witness for C5: a concrete full palette (16399 copies of (1,1,1)) and
the request (5,5,5); the closest entry by the score is at index 1
(score 12), yet the call returns 0. -/
theorem C5_palette_full_returns_black_witness :
    getColourId (List.replicate 16399 ⟨1, 1, 1⟩) ⟨5, 5, 5⟩ =
      (0, List.replicate 16399 ⟨1, 1, 1⟩, true) :=
  C5_palette_full_returns_black _ _ (by rw [List.length_replicate]; decide)
    (by simp [black]) (by rw [List.mem_replicate]; simp)

/-- C9: a colour resolved while capacity remains (an exact match, or an
append when the table is not full) round-trips: `getColour` of the
returned id gives back exactly the requested colour. -/
theorem C9_palette_round_trip (pal : List RGB) (c : RGB) (hc : c ≠ black)
    (hcase : c ∈ pal ∨ pal.length < maxColours - 1) :
    getColour (getColourId pal c).2.1 (getColourId pal c).1 = c := by
  by_cases hmem : c ∈ pal
  · rcases gciLoop_mem c (decide (pal.length < maxColours - 1)) pal hmem 1 100 0 with
      ⟨k, hk, hget, hval⟩
    simp only [getColourId, if_neg hc, hval]
    have hne : 1 + k ≠ 0 := by omega
    simp only [if_neg hne]
    simp only [getColour, if_neg hne]
    have hle : 1 + k ≤ pal.length := by omega
    rw [if_pos hle]
    simpa using hget
  · have hcap : pal.length < maxColours - 1 := hcase.resolve_left hmem
    have h0 : ∀ t, (gciLoop c t pal 1 100 0).1 = 0 := fun t =>
      gciLoop_not_mem_fst c t pal hmem 1 100 0
    have hid : getColourId pal c = (pal.length + 1, pal ++ [c], false) := by
      simp only [getColourId]
      rw [if_neg hc]
      simp [h0, hcap]
    rw [hid]
    have hne : pal.length + 1 ≠ 0 := by omega
    simp only [getColour, if_neg hne]
    have hle2 : pal.length + 1 ≤ (pal ++ [c]).length := by simp
    rw [if_pos hle2]
    rw [show pal.length + 1 - 1 = pal.length by omega]
    rw [List.getD_append_right _ _ _ _ (le_refl _)]
    simp

/-- Witness for C9 at a concrete palette with room to spare. -/
theorem C9_palette_round_trip_witness :
    getColour (getColourId [⟨3, 4, 5⟩] ⟨1, 2, 3⟩).2.1
      (getColourId [⟨3, 4, 5⟩] ⟨1, 2, 3⟩).1 = ⟨1, 2, 3⟩ :=
  C9_palette_round_trip [⟨3, 4, 5⟩] ⟨1, 2, 3⟩ (by simp [black])
    (Or.inr (by simp [maxColours]))

/-! ## Moving pixels and the cube face transform
(`RGBMatrixRenderer.cpp`, `newPosition` / `updatePosition`)

`MovingPixel` mirrors the struct in `RGBMatrixRenderer.h`: `x`/`y` are
`uint16_t`, `fineX`/`fineY` are `int16_t`, `vx`/`vy` are `int8_t`.
`SUBPIXEL_RES` is 100. -/

/-- Renderer configuration: grid dimensions, panel size and cube flag. -/
structure RCfg where
  gridWidth : Nat
  gridHeight : Nat
  panelSize : Nat
  cubeMode : Bool
deriving DecidableEq, Repr

structure MovingPixel where
  x : Nat
  y : Nat
  fineX : Int
  fineY : Int
  vx : Int
  vy : Int
deriving DecidableEq, Repr

/-- The six-panel cube arrangement: three panels across, two rows, square
panels of side `p` (`width = height * 3 / 2`, `panelSize = height / 2`). -/
def cubeCfg (p : Nat) : RCfg := ⟨3 * p, 2 * p, p, true⟩

/-- A plain flat-matrix configuration (no cube transform). -/
def flatCfg (w h : Nat) : RCfg := ⟨w, h, 0, false⟩

/-- `RGBMatrixRenderer::newPosition`.  The `increment` parameter is
declared `uint16_t` in the source, so a signed increment arrives reduced
mod 2^16; `int16_t newPos = position + increment` then truncates the sum
back to a signed 16-bit value.  With `wrap` the two while loops add or
subtract `dimension` until the value lies in `[0, dimension)`, which is
exactly the Euclidean remainder; without `wrap` the value is clamped to
`[0, dimension - 1]`. -/
def newPosition (pos : Nat) (inc : Int) (dim : Nat) (wrap : Bool) : Nat :=
  let n0 : Int := toInt16 ((pos : Int) + (u16 inc : Int))
  if wrap then (n0 % (dim : Int)).toNat
  else if n0 < 0 then 0
  else if (dim : Int) ≤ n0 then dim - 1
  else n0.toNat

/-- One axis of the sub-pixel move in `updatePosition` (lines 177-230):
accumulate the fine fraction and the velocity; when the total reaches a
whole pixel, move by that many cells and keep the remainder as the new
fine fraction (signed like the velocity). -/
def axisFine (pos : Nat) (fine v : Int) (dim : Nat) (wrap : Bool) : Nat × Int :=
  let fineInc : Nat := (fine + v).natAbs
  if 100 ≤ fineInc then
    let wholePix : Nat := fineInc / 100
    let partPix : Nat := fineInc - wholePix * 100
    if v < 0 then (newPosition pos (-(wholePix : Int)) dim wrap, -(partPix : Int))
    else (newPosition pos (wholePix : Int) dim wrap, (partPix : Int))
  else if v < 0 then (pos, -(fineInc : Int))
  else (pos, (fineInc : Int))

/-- The non-cube part of `updatePosition`: both axes moved, velocities
copied unchanged. -/
def plainMove (cfg : RCfg) (pix : MovingPixel) (wrap : Bool) : MovingPixel :=
  let xr := axisFine pix.x pix.fineX pix.vx cfg.gridWidth wrap
  let yr := axisFine pix.y pix.fineY pix.vy cfg.gridHeight wrap
  ⟨xr.1, yr.1, xr.2, yr.2, pix.vx, pix.vy⟩

/-- `RGBMatrixRenderer::getPanel`: `(row * gridWidth / panelSize) + col`. -/
def getPanel (cfg : RCfg) (pix : MovingPixel) : Nat :=
  pix.y / cfg.panelSize * cfg.gridWidth / cfg.panelSize + pix.x / cfg.panelSize

/-- The cube-wrapping adjustment of `updatePosition` (lines 235-530),
reached when `cubeMode` and `wrap` hold.  `pix` is the pre-move pixel,
`np` the plainly wrapped result.  The diagonal panel transitions (both
panel row and panel column change, source lines 467-529) have empty
branch bodies in the source, so they leave `np` untouched. -/
def cubeAdjust (cfg : RCfg) (pix np : MovingPixel) : MovingPixel :=
  let p := cfg.panelSize
  let panelRow := pix.y / p
  let panelCol := pix.x / p
  let panelRowNew := np.y / p
  let panelColNew := np.x / p
  if panelRow = panelRowNew then
    if panelRow = 0 then
      if panelCol = 2 ∧ panelColNew = 0 then
        -- Wrapped off RH edge of panel 3, transpose onto panel 5
        { x := u16 ((p : Int) + np.y),
          y := u16 ((cfg.gridHeight : Int) - 1 - np.x),
          fineX := np.fineY, fineY := toInt16 (-np.fineX),
          vx := pix.vy, vy := toInt8 (-pix.vx) }
      else if panelCol = 0 ∧ panelColNew = 2 then
        -- Wrapped off LH edge of panel 1, transpose onto panel 5
        { x := u16 ((p : Int) + np.y),
          y := u16 ((cfg.gridWidth : Int) - 1 - np.x + p),
          fineX := np.fineY, fineY := toInt16 (-np.fineX),
          vx := pix.vy, vy := toInt8 (-pix.vx) }
      else np
    else
      if panelCol = 2 ∧ panelColNew = 0 then
        -- Wrapped off RH edge of panel 6, transpose onto panel 2
        { x := np.y,
          y := u16 ((p : Int) - 1 - np.x),
          fineX := np.fineY, fineY := toInt16 (-np.fineX),
          vx := pix.vy, vy := toInt8 (-pix.vx) }
      else if panelCol = 0 ∧ panelColNew = 2 then
        -- Wrapped off LH edge of panel 4
        { x := np.y,
          y := u16 ((cfg.gridWidth : Int) - 1 - np.x),
          fineX := np.fineY, fineY := toInt16 (-np.fineX),
          vx := pix.vy, vy := toInt8 (-pix.vx) }
      else np
  else
    if panelCol = panelColNew then
      -- Moving onto the panel above or below; select the target cube
      -- panel and the translation mode exactly as the nested ifs of the
      -- source do (keyed on column, row and sign of vy).
      let sel : Nat × Nat × Int :=
        if panelCol = 0 then
          if panelRow = 0 then
            if 0 < pix.vy then (0, 0, 2 * (p : Int)) else (0, 1, 0)
          else
            if 0 < pix.vy then (0, 0, 2 * (p : Int)) else (0, 0, 0)
        else if panelCol = 1 then
          if panelRow = 0 then
            if 0 < pix.vy then (2, 1, 1) else (0, 1, 1)
          else
            if 0 < pix.vy then (2, 0, 1) else (0, 0, 1)
        else
          if panelRow = 0 then
            if 0 < pix.vy then (2, 1, 0) else (0, 0, -(2 * (p : Int)))
          else
            if 0 < pix.vy then (2, 0, 0) else (0, 0, -(2 * (p : Int)))
      let panelColNewCube := sel.1
      let panelRowNewCube := sel.2.1
      let translate := sel.2.2
      if translate = 0 then
        -- Flip X and Y within panel, then translate to the final panel
        { x := u16 ((p : Int) - 1 - ((np.x : Int) - panelColNew * p) + panelColNewCube * p),
          y := u16 ((p : Int) - 1 - ((np.y : Int) - panelRowNew * p) + panelRowNewCube * p),
          fineX := toInt16 (-np.fineX), fineY := toInt16 (-np.fineY),
          vx := toInt8 (-pix.vx), vy := toInt8 (-pix.vy) }
      else if translate = 1 then
        -- Swap X and Y within panel, flip Y, then translate
        { x := u16 ((p : Int) - 1 - ((np.y : Int) - panelRowNew * p) + panelColNewCube * p),
          y := u16 (((np.x : Int) - panelColNew * p) + panelRowNewCube * p),
          fineX := toInt16 (-np.fineY), fineY := np.fineX,
          vx := toInt8 (-pix.vy), vy := pix.vx }
      else
        -- Translate X to the new panel; Y wraps as for flat panels
        { np with x := u16 ((np.x : Int) + translate) }
    else
      -- Diagonal cases: the source's branch bodies are empty
      np

/-- `RGBMatrixRenderer::updatePosition`. -/
def updatePosition (cfg : RCfg) (pix : MovingPixel) (wrap : Bool) : MovingPixel :=
  let np := plainMove cfg pix wrap
  if cfg.cubeMode then
    if wrap = false then pix
    else cubeAdjust cfg pix np
  else np

lemma toInt16_eq_self {n : Int} (h1 : -32768 ≤ n) (h2 : n ≤ 32767) : toInt16 n = n := by
  unfold toInt16; omega

lemma toInt8_eq_self {n : Int} (h1 : -128 ≤ n) (h2 : n ≤ 127) : toInt8 n = n := by
  unfold toInt8; omega

lemma newPosition_wrap_lt (pos : Nat) (inc : Int) (dim : Nat) (hdim : 0 < dim) :
    newPosition pos inc dim true < dim := by
  have h1 := Int.emod_lt_of_pos (toInt16 ((pos : Int) + (u16 inc : Int)))
    (show (0 : Int) < dim by exact_mod_cast hdim)
  have h2 := Int.emod_nonneg (toInt16 ((pos : Int) + (u16 inc : Int)))
    (show (dim : Int) ≠ 0 by exact_mod_cast hdim.ne.symm)
  unfold newPosition
  simp only [if_true]
  omega

lemma axisFine_fst_lt (pos : Nat) (fine v : Int) (dim : Nat)
    (hpos : pos < dim) (hdim : 0 < dim) : (axisFine pos fine v dim true).1 < dim := by
  simp only [axisFine]
  split_ifs
  all_goals dsimp only
  · exact newPosition_wrap_lt _ _ _ hdim
  · exact newPosition_wrap_lt _ _ _ hdim
  · exact hpos
  · exact hpos

lemma axisFine_snd_abs (pos : Nat) (fine v : Int) (dim : Nat) (wrap : Bool) :
    (axisFine pos fine v dim wrap).2.natAbs < 100 := by
  simp only [axisFine]
  split_ifs
  all_goals dsimp only
  all_goals omega

/-- C6 (amended): a same-panel-row wrap between panel column 2 and panel
column 0 in cube mode transposes the axes: the returned velocities are
`vx' = vy`, `vy' = -vx` in 8-bit two's complement, the sub-pixel
fractions are transposed the same way (`fineX' = fineY`,
`fineY' = -fineX`), and the pixel lands on the adjacent cube face the
source maps it to: panel index 4 ("panel 5") from the bottom row, panel
index 1 ("panel 2") from the top row — not on the plainly wrapped
panel. -/
lemma cubeCfg_width (p : Nat) : (cubeCfg p).gridWidth = 3 * p := rfl

lemma cubeCfg_height (p : Nat) : (cubeCfg p).gridHeight = 2 * p := rfl

lemma plainMove_x (cfg : RCfg) (pix : MovingPixel) (wrap : Bool) :
    (plainMove cfg pix wrap).x = (axisFine pix.x pix.fineX pix.vx cfg.gridWidth wrap).1 := rfl

lemma plainMove_y (cfg : RCfg) (pix : MovingPixel) (wrap : Bool) :
    (plainMove cfg pix wrap).y = (axisFine pix.y pix.fineY pix.vy cfg.gridHeight wrap).1 := rfl

lemma plainMove_fineX (cfg : RCfg) (pix : MovingPixel) (wrap : Bool) :
    (plainMove cfg pix wrap).fineX = (axisFine pix.x pix.fineX pix.vx cfg.gridWidth wrap).2 := rfl

theorem C6_same_row_wrap_transposes (p : Nat) (pix : MovingPixel)
    (hp : 1 ≤ p) (hp2 : 3 * p ≤ 65535)
    (hx : pix.x < 3 * p) (hy : pix.y < 2 * p)
    (hrow : (plainMove (cubeCfg p) pix true).y / p = pix.y / p)
    (hcol : (pix.x / p = 2 ∧ (plainMove (cubeCfg p) pix true).x / p = 0) ∨
            (pix.x / p = 0 ∧ (plainMove (cubeCfg p) pix true).x / p = 2)) :
    (updatePosition (cubeCfg p) pix true).vx = pix.vy ∧
    (updatePosition (cubeCfg p) pix true).vy = toInt8 (-pix.vx) ∧
    (updatePosition (cubeCfg p) pix true).fineX = (plainMove (cubeCfg p) pix true).fineY ∧
    (updatePosition (cubeCfg p) pix true).fineY = -(plainMove (cubeCfg p) pix true).fineX ∧
    getPanel (cubeCfg p) (updatePosition (cubeCfg p) pix true) =
      (if pix.y / p = 0 then 4 else 1) := by
  set np := plainMove (cubeCfg p) pix true with hnp
  have hup : updatePosition (cubeCfg p) pix true = cubeAdjust (cubeCfg p) pix np := by
    rw [updatePosition]
    simp [cubeCfg, hnp]
  have hnpx : np.x < 3 * p := by
    rw [hnp, plainMove_x, cubeCfg_width]
    exact axisFine_fst_lt _ _ _ _ hx (by omega)
  have hnpy : np.y < 2 * p := by
    rw [hnp, plainMove_y, cubeCfg_height]
    exact axisFine_fst_lt _ _ _ _ hy (by omega)
  have hfb : np.fineX.natAbs < 100 := by
    rw [hnp, plainMove_fineX]
    exact axisFine_snd_abs _ _ _ _ _
  have hfine : toInt16 (-np.fineX) = -np.fineX := toInt16_eq_self (by omega) (by omega)
  rw [hup]
  rcases hcol with ⟨hc2, hc0⟩ | ⟨hc0, hc2⟩ <;> by_cases hr : pix.y / p = 0
  · -- bottom row, wrapped off the right edge of panel 3 onto panel 5
    have hnpy0 : np.y < p := by
      have h0 : np.y / p = 0 := hrow.trans hr
      exact (Nat.div_eq_zero_iff (by omega)).mp h0
    have hnpx0 : np.x < p := (Nat.div_eq_zero_iff (by omega)).mp hc0
    have heq : cubeAdjust (cubeCfg p) pix np =
        { x := u16 ((p : Int) + np.y), y := u16 (((2 * p : Nat) : Int) - 1 - np.x),
          fineX := np.fineY, fineY := toInt16 (-np.fineX),
          vx := pix.vy, vy := toInt8 (-pix.vx) } := by
      rw [cubeAdjust]
      simp only [cubeCfg]
      rw [if_pos hrow.symm, if_pos hr, if_pos ⟨hc2, hc0⟩]
    have hxv : u16 ((p : Int) + np.y) = p + np.y := by unfold u16; omega
    have hyv : u16 (((2 * p : Nat) : Int) - 1 - np.x) = 2 * p - 1 - np.x := by
      unfold u16; omega
    refine ⟨by rw [heq], by rw [heq], by rw [heq], by rw [heq, hfine], ?_⟩
    rw [heq, if_pos hr]
    simp only [getPanel, cubeCfg, hxv, hyv]
    have h1 : (2 * p - 1 - np.x) / p = 1 :=
      Nat.div_eq_of_lt_le (by omega) (by omega)
    have h2 : (p + np.y) / p = 1 := Nat.div_eq_of_lt_le (by omega) (by omega)
    rw [h1, h2, one_mul, Nat.mul_div_cancel 3 (by omega)]
  · -- top row, wrapped off the right edge of panel 6 onto panel 2
    have hr1 : pix.y / p = 1 := by
      have h2 : pix.y / p < 2 := (Nat.div_lt_iff_lt_mul (by omega)).mpr (by omega)
      exact Nat.le_antisymm (Nat.lt_succ_iff.mp h2) (Nat.one_le_iff_ne_zero.mpr hr)
    have hnpy1 : np.y / p = 1 := hrow.trans hr1
    have hnpylo : p ≤ np.y := by
      have := (Nat.le_div_iff_mul_le (k := p) (by omega)).mp (le_of_eq hnpy1.symm)
      omega
    have hnpx0 : np.x < p := (Nat.div_eq_zero_iff (by omega)).mp hc0
    have heq : cubeAdjust (cubeCfg p) pix np =
        { x := np.y, y := u16 ((p : Int) - 1 - np.x),
          fineX := np.fineY, fineY := toInt16 (-np.fineX),
          vx := pix.vy, vy := toInt8 (-pix.vx) } := by
      rw [cubeAdjust]
      simp only [cubeCfg]
      rw [if_pos hrow.symm, if_neg hr, if_pos ⟨hc2, hc0⟩]
    have hyv : u16 ((p : Int) - 1 - np.x) = p - 1 - np.x := by unfold u16; omega
    refine ⟨by rw [heq], by rw [heq], by rw [heq], by rw [heq, hfine], ?_⟩
    rw [heq, if_neg hr]
    simp only [getPanel, cubeCfg, hyv]
    have h1 : (p - 1 - np.x) / p = 0 := Nat.div_eq_of_lt (by omega)
    rw [h1, hnpy1, zero_mul, Nat.zero_div]
  · -- bottom row, wrapped off the left edge of panel 1 onto panel 5
    have hnpy0 : np.y < p := by
      have h0 : np.y / p = 0 := hrow.trans hr
      exact (Nat.div_eq_zero_iff (by omega)).mp h0
    have hnpx2 : 2 * p ≤ np.x := by
      have := (Nat.le_div_iff_mul_le (k := p) (by omega)).mp (le_of_eq hc2.symm)
      omega
    have hne : ¬ (pix.x / p = 2 ∧ np.x / p = 0) := fun h =>
      absurd (hc0.symm.trans h.1) (by decide)
    have heq : cubeAdjust (cubeCfg p) pix np =
        { x := u16 ((p : Int) + np.y), y := u16 (((3 * p : Nat) : Int) - 1 - np.x + p),
          fineX := np.fineY, fineY := toInt16 (-np.fineX),
          vx := pix.vy, vy := toInt8 (-pix.vx) } := by
      rw [cubeAdjust]
      simp only [cubeCfg]
      rw [if_pos hrow.symm, if_pos hr, if_neg hne, if_pos ⟨hc0, hc2⟩]
    have hxv : u16 ((p : Int) + np.y) = p + np.y := by unfold u16; omega
    have hyv : u16 (((3 * p : Nat) : Int) - 1 - np.x + p) = 4 * p - 1 - np.x := by
      unfold u16; omega
    refine ⟨by rw [heq], by rw [heq], by rw [heq], by rw [heq, hfine], ?_⟩
    rw [heq, if_pos hr]
    simp only [getPanel, cubeCfg, hxv, hyv]
    have h1 : (4 * p - 1 - np.x) / p = 1 :=
      Nat.div_eq_of_lt_le (by omega) (by omega)
    have h2 : (p + np.y) / p = 1 := Nat.div_eq_of_lt_le (by omega) (by omega)
    rw [h1, h2, one_mul, Nat.mul_div_cancel 3 (by omega)]
  · -- top row, wrapped off the left edge of panel 4 onto panel 2
    have hr1 : pix.y / p = 1 := by
      have h2 : pix.y / p < 2 := (Nat.div_lt_iff_lt_mul (by omega)).mpr (by omega)
      exact Nat.le_antisymm (Nat.lt_succ_iff.mp h2) (Nat.one_le_iff_ne_zero.mpr hr)
    have hnpy1 : np.y / p = 1 := hrow.trans hr1
    have hnpylo : p ≤ np.y := by
      have := (Nat.le_div_iff_mul_le (k := p) (by omega)).mp (le_of_eq hnpy1.symm)
      omega
    have hnpx2 : 2 * p ≤ np.x := by
      have := (Nat.le_div_iff_mul_le (k := p) (by omega)).mp (le_of_eq hc2.symm)
      omega
    have hne : ¬ (pix.x / p = 2 ∧ np.x / p = 0) := fun h =>
      absurd (hc0.symm.trans h.1) (by decide)
    have heq : cubeAdjust (cubeCfg p) pix np =
        { x := np.y, y := u16 (((3 * p : Nat) : Int) - 1 - np.x),
          fineX := np.fineY, fineY := toInt16 (-np.fineX),
          vx := pix.vy, vy := toInt8 (-pix.vx) } := by
      rw [cubeAdjust]
      simp only [cubeCfg]
      rw [if_pos hrow.symm, if_neg hr, if_neg hne, if_pos ⟨hc0, hc2⟩]
    have hyv : u16 (((3 * p : Nat) : Int) - 1 - np.x) = 3 * p - 1 - np.x := by
      unfold u16; omega
    refine ⟨by rw [heq], by rw [heq], by rw [heq], by rw [heq, hfine], ?_⟩
    rw [heq, if_neg hr]
    simp only [getPanel, cubeCfg, hyv]
    have h1 : (3 * p - 1 - np.x) / p = 0 := Nat.div_eq_of_lt (by omega)
    rw [h1, hnpy1, zero_mul, Nat.zero_div]

/-- Counterexample for C6 as stated: velocity negation happens in 8-bit
two's complement, so a pixel leaving the left edge of panel 1 with
`vx = -128` comes back with `vy' = -128`, not `-vx = 128` (which is not
representable in `int8_t`). -/
theorem C6_counterexample :
    (updatePosition (cubeCfg 8) ⟨0, 0, 0, 0, -128, 0⟩ true).vy = -128 ∧
    (updatePosition (cubeCfg 8) ⟨0, 0, 0, 0, -128, 0⟩ true).vy ≠
      -(MovingPixel.vx ⟨0, 0, 0, 0, -128, 0⟩) := by
  constructor
  · decide
  · decide

/-- Witness for C6 at a concrete corner turn: panel 3's right edge,
landing on panel 5 with the velocities and fractions transposed. -/
theorem C6_same_row_wrap_transposes_witness :
    (updatePosition (cubeCfg 8) ⟨23, 0, 90, 0, 30, 5⟩ true).vx = 5 ∧
    (updatePosition (cubeCfg 8) ⟨23, 0, 90, 0, 30, 5⟩ true).vy = toInt8 (-30) ∧
    (updatePosition (cubeCfg 8) ⟨23, 0, 90, 0, 30, 5⟩ true).fineX =
      (plainMove (cubeCfg 8) ⟨23, 0, 90, 0, 30, 5⟩ true).fineY ∧
    (updatePosition (cubeCfg 8) ⟨23, 0, 90, 0, 30, 5⟩ true).fineY =
      -(plainMove (cubeCfg 8) ⟨23, 0, 90, 0, 30, 5⟩ true).fineX ∧
    getPanel (cubeCfg 8) (updatePosition (cubeCfg 8) ⟨23, 0, 90, 0, 30, 5⟩ true) = 4 := by
  have h := C6_same_row_wrap_transposes 8 ⟨23, 0, 90, 0, 30, 5⟩
    (by decide) (by decide) (by decide) (by decide) (by decide)
    (Or.inl (by constructor <;> decide))
  simpa using h

/-- C7: in cube mode with wrap on, a move that changes both the panel row
and the panel column receives no face transform, and the result is
exactly what the flat (non-cube) wrapping produces. -/
theorem C7_diagonal_transition_untransformed (p : Nat) (pix : MovingPixel)
    (hrow : (plainMove (cubeCfg p) pix true).y / p ≠ pix.y / p)
    (hcol : (plainMove (cubeCfg p) pix true).x / p ≠ pix.x / p) :
    updatePosition (cubeCfg p) pix true = updatePosition (flatCfg (3 * p) (2 * p)) pix true := by
  have hplain : plainMove (cubeCfg p) pix true = plainMove (flatCfg (3 * p) (2 * p)) pix true :=
    rfl
  have h1 : updatePosition (flatCfg (3 * p) (2 * p)) pix true =
      plainMove (flatCfg (3 * p) (2 * p)) pix true := by
    rw [updatePosition]
    simp [flatCfg]
  have h2 : updatePosition (cubeCfg p) pix true =
      cubeAdjust (cubeCfg p) pix (plainMove (cubeCfg p) pix true) := by
    rw [updatePosition]
    simp [cubeCfg]
  rw [h1, h2, ← hplain]
  rw [cubeAdjust]
  simp only [cubeCfg]
  rw [if_neg (fun h => hrow h.symm), if_neg (fun h => hcol h.symm)]

/-- Witness for C7: at panel size 8 a pixel crosses from panel (0,0) to
panel (1,1) diagonally and the cube-mode result equals the flat-mode
result. -/
theorem C7_diagonal_transition_untransformed_witness :
    updatePosition (cubeCfg 8) ⟨7, 7, 90, 90, 30, 30⟩ true =
      updatePosition (flatCfg 24 16) ⟨7, 7, 90, 90, 30, 30⟩ true :=
  C7_diagonal_transition_untransformed 8 ⟨7, 7, 90, 90, 30, 30⟩ (by decide) (by decide)

/-! ## Gravity particles (`gravityparticles.cpp`)

`Particle` mirrors the struct in `gravityparticles.h`: position in
particle space (`uint16_t`), velocity (`int16_t`).  The occupancy grid is
the renderer's `img` array, modelled as a total function from cell index
to colour code.  The two float computations of `runCycle` are parameters:
`clip` stands for the 2-D velocity rescaling of lines 117-119
(`(int16_t)(velCap*(float)vx/v)` with `v = sqrt(v2)`), and `bv` stands
for `v /= -loss` (for bounce energy 255, `loss = 1.0` exactly and `bv`
is exact negation). -/

structure Particle where
  x : Nat
  y : Nat
  vx : Int
  vy : Int
deriving DecidableEq, Repr

/-- The configuration state of a `GravityParticles` instance. -/
structure Cfg where
  gridWidth : Nat
  gridHeight : Nat
  spaceMultiplier : Nat
  velCap : Nat
  accelX : Int
  accelY : Int
  shake : Nat
  bounce : Nat
deriving DecidableEq, Repr

/-- The constructor arithmetic (`gravityparticles.cpp` lines 39-88):
`spaceMultiplier` from the larger grid dimension, `velCap` =
`spaceMultiplier * 64`, acceleration zero. -/
def mkCfg (w h shake bounce : Nat) : Cfg :=
  let maxDim := max w h
  let multiplier := 5900 / maxDim
  let sm := if 25 < multiplier then 256 else 10 * multiplier
  ⟨w, h, sm, sm * 64, 0, 0, shake, bounce⟩

/-- The occupancy grid (`img`): cell index to colour code, 0 = free. -/
abbrev Grid := Nat → Nat

/-- `setPixelValue`. -/
def setPix (g : Grid) (i v : Nat) : Grid := fun j => if j = i then v else g j

/-- The cell index of a particle-space position:
`(y/spaceMultiplier)*gridWidth + x/spaceMultiplier`. -/
def cellIdx (cfg : Cfg) (x y : Nat) : Nat :=
  y / cfg.spaceMultiplier * cfg.gridWidth + x / cfg.spaceMultiplier

def pcell (cfg : Cfg) (p : Particle) : Nat := cellIdx cfg p.x p.y

/-- A particle-space position inside the grid. -/
abbrev inb (cfg : Cfg) (p : Particle) : Prop :=
  p.x < cfg.gridWidth * cfg.spaceMultiplier ∧ p.y < cfg.gridHeight * cfg.spaceMultiplier

/-- One particle of the velocity pass (`runCycle` lines 104-126): add
acceleration plus jitter to each component (int16 wrap), then clip the
2-D vector when its squared magnitude (computed in `int32_t`) exceeds
`velCap^2`.  `r1`, `r2` are the two values returned by the renderer's
random source for this particle. -/
def velUpdate (cfg : Cfg) (clip : Int → Int → Int × Int) (r1 r2 : Int)
    (p : Particle) : Particle :=
  let axa := toInt16 (cfg.accelX + r1)
  let aya := toInt16 (cfg.accelY + r2)
  let vx := toInt16 (p.vx + axa)
  let vy := toInt16 (p.vy + aya)
  let v2 := toInt32 (vx * vx + vy * vy)
  if (cfg.velCap : Int) * cfg.velCap < v2 then ⟨p.x, p.y, (clip vx vy).1, (clip vx vy).2⟩
  else ⟨p.x, p.y, vx, vy⟩

/-- `int16_t shakeFactor = shake / 2`. -/
def shakeFactor (cfg : Cfg) : Int := (cfg.shake / 2 : Nat)

/-- The velocity pass over the particle array.  The random source is
consumed in call order: particle `i` uses calls `2*i` and `2*i+1`, each
with the argument pair `(-shakeFactor, shakeFactor+1)` the source passes
(as int16 values). -/
def velocityPass (cfg : Cfg) (clip : Int → Int → Int × Int)
    (rand : Nat → Int → Int → Int) : Nat → List Particle → List Particle
  | _, [] => []
  | i, p :: ps =>
    velUpdate cfg clip
      (rand (2 * i) (toInt16 (-shakeFactor cfg)) (toInt16 (shakeFactor cfg + 1)))
      (rand (2 * i + 1) (toInt16 (-shakeFactor cfg)) (toInt16 (shakeFactor cfg + 1))) p ::
      velocityPass cfg clip rand (i + 1) ps

/-- One axis of the position update (`runCycle` lines 145-189): the new
buffered position `pos + over + v/velDiv` is computed in `int` and stored
into a `uint16_t` (wrap), clamped to `[over, maxA + over]` with the wall
bounce (`bv v` when bounce > 0, else stop dead), and the buffer is
removed again.  Returns the new position and the (possibly bounced)
velocity. -/
def axisStep (cfg : Cfg) (bv : Int → Int) (maxA : Nat) (pos : Nat) (v : Int) : Nat × Int :=
  let over := 10 * cfg.spaceMultiplier
  let n0 : Nat := u16 ((pos : Int) + over + Int.tdiv v 256)
  if maxA + over < n0 then (maxA, if 0 < cfg.bounce then bv v else 0)
  else if n0 < over then (0, if 0 < cfg.bounce then bv v else 0)
  else (n0 - over, v)

/-- Result of the collision resolution: final position, velocities, and
the grid cell the particle is recorded in (`newidx`). -/
structure MoveRes where
  nx : Nat
  ny : Nat
  vx : Int
  vy : Int
  idx : Nat
deriving DecidableEq, Repr

/-- The collision resolution of `runCycle` (lines 199-254), entered with
the clamped candidate position `(nx, ny)` and the post-wall-bounce
velocities.  Note the faithful translation of lines 237-238: in the
Y-faster diagonal branch, when the Y-only cell is free the source cancels
the X motion but divides `vy` (not `vx`) by `-loss`, although its own
comment says "and bounce X velocity". -/
def resolveCollision (cfg : Cfg) (bv : Int → Int) (g : Grid) (px py nx ny : Nat)
    (vx vy : Int) : MoveRes :=
  let w := cfg.gridWidth
  let sm := cfg.spaceMultiplier
  let oldidx := py / sm * w + px / sm
  let newidx := ny / sm * w + nx / sm
  if oldidx ≠ newidx ∧ g newidx ≠ 0 then
    let delta := ((newidx : Int) - oldidx).natAbs
    if delta = 1 then ⟨px, ny, bv vx, vy, oldidx⟩
    else if delta = w then ⟨nx, py, vx, bv vy, oldidx⟩
    else if 0 ≤ (vx.natAbs : Int) - (vy.natAbs : Int) then
      let idxX := py / sm * w + nx / sm
      if g idxX = 0 then ⟨nx, py, vx, bv vy, idxX⟩
      else
        let idxY := ny / sm * w + px / sm
        if g idxY = 0 then ⟨px, ny, bv vx, vy, idxY⟩
        else ⟨px, py, bv vx, bv vy, oldidx⟩
    else
      let idxY := ny / sm * w + px / sm
      if g idxY = 0 then ⟨px, ny, vx, bv vy, idxY⟩
      else
        let idxX := py / sm * w + nx / sm
        if g idxX = 0 then ⟨nx, py, vx, bv vy, idxX⟩
        else ⟨px, py, bv vx, bv vy, oldidx⟩
  else ⟨nx, ny, vx, vy, newidx⟩

/-- One particle of the position pass: move, resolve collisions, and
swap the occupancy (`runCycle` lines 256-265: read the colour code of the
old cell, clear it, write the new cell) when the cell changed. -/
def moveParticle (cfg : Cfg) (bv : Int → Int) (g : Grid) (p : Particle) :
    Grid × Particle :=
  let sm := cfg.spaceMultiplier
  let xr := axisStep cfg bv (cfg.gridWidth * sm - 1) p.x p.vx
  let yr := axisStep cfg bv (cfg.gridHeight * sm - 1) p.y p.vy
  let r := resolveCollision cfg bv g p.x p.y xr.1 yr.1 xr.2 yr.2
  let oldidx := pcell cfg p
  let g2 := if oldidx ≠ r.idx then setPix (setPix g oldidx 0) r.idx (g oldidx) else g
  (g2, ⟨r.nx, r.ny, r.vx, r.vy⟩)

/-- The position pass: particles processed in index order, each against
the grid state left by its predecessors. -/
def positionPass (cfg : Cfg) (bv : Int → Int) : Grid → List Particle → Grid × List Particle
  | g, [] => (g, [])
  | g, p :: ps =>
    let m := moveParticle cfg bv g p
    let rest := positionPass cfg bv m.1 ps
    (rest.1, m.2 :: rest.2)

/-- `GravityParticles::runCycle`: velocity pass then position pass. -/
def runCycle (cfg : Cfg) (rand : Nat → Int → Int → Int) (clip : Int → Int → Int × Int)
    (bv : Int → Int) (g : Grid) (ps : List Particle) : Grid × List Particle :=
  positionPass cfg bv g (velocityPass cfg clip rand 0 ps)

/-- The mutable state of one simulation instance: particle store,
occupancy grid and colour palette. -/
structure SimState where
  particles : List Particle
  grid : Grid
  pal : List RGB

/-- The 5-argument `GravityParticles::addParticle`: store the particle at
`(x*spaceMultiplier + offset)` for a random offset per axis, and mark its
cell with the colour id. -/
def addParticleAt (cfg : Cfg) (r1 r2 : Int) (x y : Nat) (colour : RGB) (vx vy : Int)
    (st : SimState) : SimState :=
  let sm := cfg.spaceMultiplier
  let px := u16 (((x * sm : Nat) : Int) + r1)
  let py := u16 (((y * sm : Nat) : Int) + r2)
  let idp := getColourId st.pal colour
  { particles := st.particles ++ [⟨px, py, vx, vy⟩],
    grid := setPix st.grid (py / sm * cfg.gridWidth + px / sm) idp.1,
    pal := idp.2.1 }

/-- The random placement loop of the 3-argument `addParticle` (lines
335-343): sample `(x, y)` and retry while the cell is occupied, for at
most 2001 attempts.  The fuel argument counts the remaining retries;
`k` is the position in the random call sequence.  Returns the last
sampled coordinates and the next call counter. -/
def placeLoop (cfg : Cfg) (g : Grid) (rand : Nat → Int → Int → Int) :
    Nat → Nat → Nat × Nat × Nat
  | 0, k => (u16 (rand k 0 cfg.gridWidth), u16 (rand (k + 1) 0 cfg.gridHeight), k + 2)
  | fuel + 1, k =>
    let x := u16 (rand k 0 cfg.gridWidth)
    let y := u16 (rand (k + 1) 0 cfg.gridHeight)
    if g (y * cfg.gridWidth + x) ≠ 0 then placeLoop cfg g rand fuel (k + 2)
    else (x, y, k + 2)

/-- The 3-argument `GravityParticles::addParticle`: random placement; if
the finally sampled cell is free the particle is added there, otherwise
only a message is printed and the state is unchanged. -/
def addParticle (cfg : Cfg) (rand : Nat → Int → Int → Int) (colour : RGB) (vx vy : Int)
    (st : SimState) : SimState :=
  let r := placeLoop cfg st.grid rand 2000 0
  if st.grid (r.2.1 * cfg.gridWidth + r.1) = 0 then
    addParticleAt cfg (rand r.2.2 0 cfg.spaceMultiplier) (rand (r.2.2 + 1) 0 cfg.spaceMultiplier)
      r.1 r.2.1 colour vx vy st
  else st

/-- `GravityParticles::clearParticles`: sets `numParticles` to 0 and
nothing else. -/
def clearParticles (st : SimState) : SimState := { st with particles := [] }

/-- `GravityParticles::imgToParticles`, scanning the given cells in
order: each cell whose colour code (read back as `uint8_t`, hence
`% 256`) is non-zero gets a particle via `addParticleAt` with the cell's
colour.  `k` is the random call counter. -/
def imgScan (cfg : Cfg) (rand : Nat → Int → Int → Int) :
    List (Nat × Nat) → Nat → SimState → SimState
  | [], _, st => st
  | (x, y) :: rest, k, st =>
    let code := st.grid (y * cfg.gridWidth + x) % 256
    if 0 < code then
      imgScan cfg rand rest (k + 2)
        (addParticleAt cfg (rand k 0 cfg.spaceMultiplier) (rand (k + 1) 0 cfg.spaceMultiplier)
          x y (getColour st.pal code) 0 0 st)
    else imgScan cfg rand rest k st

/-- The y-outer, x-inner scan order of `imgToParticles`. -/
def scanOrder (cfg : Cfg) : List (Nat × Nat) :=
  (List.range cfg.gridHeight).flatMap fun y => (List.range cfg.gridWidth).map fun x => (x, y)

def imgToParticles (cfg : Cfg) (rand : Nat → Int → Int → Int) (st : SimState) : SimState :=
  imgScan cfg rand (scanOrder cfg) 0 st

/-! ## C1: the diagonal collision bounce -/

/-- C1 (code bug): concrete run exhibiting the slip at
`gravityparticles.cpp` lines 237-238.  Grid 4 x 4 (spaceMultiplier 256),
no acceleration or shake, bounce energy 255 (loss = 1, so `v /= -loss`
is exact negation).  Particle 0 at (511,511) with velocity (256,512)
moves diagonally into the occupied cell (2,2); Y is the faster axis and
the Y-only cell (1,2) is free, so per the claim (and the source's own
comment) the X motion should be cancelled and `vx` bounced to -256 with
`vy` kept at 512.  The code instead keeps `vx = 256` and bounces `vy`
to -512. -/
theorem C1_diagonal_bounce_bug :
    (runCycle (mkCfg 4 4 0 255) (fun _ _ _ => 0) (fun a b => (a, b)) (fun v => -v)
        (fun i => if i = 5 then 1 else if i = 10 then 2 else 0)
        [⟨511, 511, 256, 512⟩, ⟨640, 640, 0, 0⟩]).2 =
      [⟨511, 513, 256, -512⟩, ⟨640, 640, 0, 0⟩] := by
  decide

/-! ## C8: the jitter added in the velocity pass -/

lemma shakeFactor_nonneg (cfg : Cfg) : 0 ≤ shakeFactor cfg := Int.natCast_nonneg _

/-- Each particle of the velocity pass is updated with two random values
drawn from calls with argument pair `(-shakeFactor, shakeFactor + 1)`;
under the inclusive-range contract both values lie in
`[-shakeFactor, shakeFactor + 1]`. -/
lemma velocityPass_getD (cfg : Cfg) (clip : Int → Int → Int × Int)
    (rand : Nat → Int → Int → Int) (d : Particle)
    (hsf : shakeFactor cfg + 1 ≤ 32767)
    (hrand : ∀ k a b, a ≤ b → a ≤ rand k a b ∧ rand k a b ≤ b) :
    ∀ (ps : List Particle) (k i : Nat), i < ps.length →
      ∃ j1 j2 : Int, -shakeFactor cfg ≤ j1 ∧ j1 ≤ shakeFactor cfg + 1 ∧
        -shakeFactor cfg ≤ j2 ∧ j2 ≤ shakeFactor cfg + 1 ∧
        (velocityPass cfg clip rand k ps).getD i d = velUpdate cfg clip j1 j2 (ps.getD i d) := by
  have hsf0 := shakeFactor_nonneg cfg
  have hlo : toInt16 (-shakeFactor cfg) = -shakeFactor cfg := toInt16_eq_self (by omega) (by omega)
  have hhi : toInt16 (shakeFactor cfg + 1) = shakeFactor cfg + 1 :=
    toInt16_eq_self (by omega) (by omega)
  intro ps
  induction ps with
  | nil => intro k i h; simp at h
  | cons p rest ih =>
    intro k i hi
    cases i with
    | zero =>
      simp only [velocityPass]
      set r1 := rand (2 * k) (toInt16 (-shakeFactor cfg)) (toInt16 (shakeFactor cfg + 1)) with hr1
      set r2 := rand (2 * k + 1) (toInt16 (-shakeFactor cfg)) (toInt16 (shakeFactor cfg + 1))
        with hr2
      have h1 := hrand (2 * k) (toInt16 (-shakeFactor cfg)) (toInt16 (shakeFactor cfg + 1))
        (by rw [hlo, hhi]; omega)
      have h2 := hrand (2 * k + 1) (toInt16 (-shakeFactor cfg)) (toInt16 (shakeFactor cfg + 1))
        (by rw [hlo, hhi]; omega)
      rw [← hr1] at h1
      rw [← hr2] at h2
      rw [hlo, hhi] at h1 h2
      exact ⟨r1, r2, h1.1, h1.2, h2.1, h2.2, by simp⟩
    | succ n =>
      have h := ih (k + 1) n (by simpa using hi)
      simpa [velocityPass, List.getD_cons_succ] using h

/-- C8 (amended): in the velocity pass, for every random source
satisfying the inclusive-range contract, the amount added to each
velocity component is the acceleration plus an integer in the inclusive
range `[-shake/2, shake/2 + 1]` — the source calls
`random_int16(-shakeFactor, shakeFactor + 1)`, so under the inclusive
contract the top of the claimed range `[-shake/2, shake/2]` is exceeded
by one (the claimed range is correct only for the half-open sources the
repository's renderers implement). -/
theorem C8_velocity_jitter (cfg : Cfg) (clip : Int → Int → Int × Int)
    (rand : Nat → Int → Int → Int) (ps : List Particle) (i : Nat)
    (hsf : shakeFactor cfg + 1 ≤ 32767)
    (hrand : ∀ k a b, a ≤ b → a ≤ rand k a b ∧ rand k a b ≤ b)
    (hi : i < ps.length) :
    ∃ j1 j2 : Int, -shakeFactor cfg ≤ j1 ∧ j1 ≤ shakeFactor cfg + 1 ∧
      -shakeFactor cfg ≤ j2 ∧ j2 ≤ shakeFactor cfg + 1 ∧
      (velocityPass cfg clip rand 0 ps).getD i ⟨0, 0, 0, 0⟩ =
        velUpdate cfg clip j1 j2 (ps.getD i ⟨0, 0, 0, 0⟩) :=
  velocityPass_getD cfg clip rand ⟨0, 0, 0, 0⟩ hsf hrand ps 0 i hi

/-- Counterexample for C8 as stated: the source `fun _ _ b => b`
(always return the upper bound) satisfies the inclusive-range contract,
yet with shake = 2 (`shakeFactor` 1) and zero acceleration it adds 2 to
both velocity components in one `runCycle`, outside the claimed range
`[-1, 1]`. -/
theorem C8_counterexample :
    (∀ (k : Nat) (a b : Int), a ≤ b →
      a ≤ (fun (_ : Nat) (_ b : Int) => b) k a b ∧ (fun (_ : Nat) (_ b : Int) => b) k a b ≤ b) ∧
    (runCycle (mkCfg 4 4 2 10) (fun _ _ b => b) (fun a b => (a, b)) (fun v => -v)
        (fun _ => 0) [⟨384, 384, 0, 0⟩]).2 = [⟨384, 384, 2, 2⟩] ∧
    shakeFactor (mkCfg 4 4 2 10) = 1 ∧ (mkCfg 4 4 2 10).accelX = 0 ∧
    ¬ ((2 : Int) ≤ 1) :=
  ⟨fun _ a b h => ⟨h, le_refl b⟩, by decide, by decide, by decide, by decide⟩

/-- Witness for C8 at a concrete configuration and source. -/
theorem C8_velocity_jitter_witness :
    ∃ j1 j2 : Int,
      -shakeFactor (mkCfg 4 4 2 10) ≤ j1 ∧ j1 ≤ shakeFactor (mkCfg 4 4 2 10) + 1 ∧
      -shakeFactor (mkCfg 4 4 2 10) ≤ j2 ∧ j2 ≤ shakeFactor (mkCfg 4 4 2 10) + 1 ∧
      (velocityPass (mkCfg 4 4 2 10) (fun a b => (a, b)) (fun _ a _ => a) 0
          [⟨384, 384, 0, 0⟩]).getD 0 ⟨0, 0, 0, 0⟩ =
        velUpdate (mkCfg 4 4 2 10) (fun a b => (a, b)) j1 j2
          ([(⟨384, 384, 0, 0⟩ : Particle)].getD 0 ⟨0, 0, 0, 0⟩) :=
  C8_velocity_jitter (mkCfg 4 4 2 10) (fun a b => (a, b)) (fun _ a _ => a)
    [⟨384, 384, 0, 0⟩] 0 (by decide) (fun _ a _ h => ⟨le_refl a, h⟩) (by decide)

/-! ## C4: boundary containment -/

lemma axisStep_fst_le (cfg : Cfg) (bv : Int → Int) (maxA pos : Nat) (v : Int) :
    (axisStep cfg bv maxA pos v).1 ≤ maxA := by
  simp only [axisStep]
  split_ifs
  all_goals dsimp only
  all_goals omega

lemma resolveCollision_pos (cfg : Cfg) (bv : Int → Int) (g : Grid) (px py nx ny : Nat)
    (vx vy : Int) :
    ((resolveCollision cfg bv g px py nx ny vx vy).nx = nx ∨
      (resolveCollision cfg bv g px py nx ny vx vy).nx = px) ∧
    ((resolveCollision cfg bv g px py nx ny vx vy).ny = ny ∨
      (resolveCollision cfg bv g px py nx ny vx vy).ny = py) := by
  simp only [resolveCollision]
  split_ifs
  all_goals dsimp only
  all_goals simp

lemma velUpdate_x (cfg : Cfg) (clip : Int → Int → Int × Int) (r1 r2 : Int) (p : Particle) :
    (velUpdate cfg clip r1 r2 p).x = p.x := by
  simp only [velUpdate]
  split_ifs <;> rfl

lemma velUpdate_y (cfg : Cfg) (clip : Int → Int → Int × Int) (r1 r2 : Int) (p : Particle) :
    (velUpdate cfg clip r1 r2 p).y = p.y := by
  simp only [velUpdate]
  split_ifs <;> rfl

lemma moveParticle_inb (cfg : Cfg) (bv : Int → Int) (g : Grid) (p : Particle)
    (hp : inb cfg p) : inb cfg (moveParticle cfg bv g p).2 := by
  obtain ⟨hx, hy⟩ := hp
  have hxle := axisStep_fst_le cfg bv (cfg.gridWidth * cfg.spaceMultiplier - 1) p.x p.vx
  have hyle := axisStep_fst_le cfg bv (cfg.gridHeight * cfg.spaceMultiplier - 1) p.y p.vy
  have hres := resolveCollision_pos cfg bv g p.x p.y
    (axisStep cfg bv (cfg.gridWidth * cfg.spaceMultiplier - 1) p.x p.vx).1
    (axisStep cfg bv (cfg.gridHeight * cfg.spaceMultiplier - 1) p.y p.vy).1
    (axisStep cfg bv (cfg.gridWidth * cfg.spaceMultiplier - 1) p.x p.vx).2
    (axisStep cfg bv (cfg.gridHeight * cfg.spaceMultiplier - 1) p.y p.vy).2
  simp only [moveParticle]
  constructor
  · dsimp only
    rcases hres.1 with h | h <;> rw [h] <;> omega
  · dsimp only
    rcases hres.2 with h | h <;> rw [h] <;> omega

lemma velocityPass_inb (cfg : Cfg) (clip : Int → Int → Int × Int)
    (rand : Nat → Int → Int → Int) :
    ∀ (ps : List Particle) (k : Nat), (∀ p ∈ ps, inb cfg p) →
      ∀ q ∈ velocityPass cfg clip rand k ps, inb cfg q := by
  intro ps
  induction ps with
  | nil => intro k h q hq; simp [velocityPass] at hq
  | cons p rest ih =>
    intro k h q hq
    simp only [velocityPass] at hq
    rcases List.mem_cons.mp hq with rfl | hq
    · have hp := h p (List.mem_cons_self p rest)
      constructor
      · rw [velUpdate_x]; exact hp.1
      · rw [velUpdate_y]; exact hp.2
    · exact ih (k + 1) (fun r hr => h r (List.mem_cons_of_mem p hr)) q hq

lemma positionPass_inb (cfg : Cfg) (bv : Int → Int) :
    ∀ (ps : List Particle) (g : Grid), (∀ p ∈ ps, inb cfg p) →
      ∀ q ∈ (positionPass cfg bv g ps).2, inb cfg q := by
  intro ps
  induction ps with
  | nil => intro g h q hq; simp [positionPass] at hq
  | cons p rest ih =>
    intro g h q hq
    simp only [positionPass] at hq
    rcases List.mem_cons.mp hq with rfl | hq
    · exact moveParticle_inb cfg bv g p (h p (List.mem_cons_self p rest))
    · exact ih _ (fun r hr => h r (List.mem_cons_of_mem p hr)) q hq

lemma placeLoop_lt (cfg : Cfg) (g : Grid) (rand : Nat → Int → Int → Int)
    (hW : 1 ≤ cfg.gridWidth) (hH : 1 ≤ cfg.gridHeight)
    (hWb : cfg.gridWidth ≤ 65536) (hHb : cfg.gridHeight ≤ 65536)
    (hrand : ∀ k a b, a < b → a ≤ rand k a b ∧ rand k a b < b) :
    ∀ fuel k, (placeLoop cfg g rand fuel k).1 < cfg.gridWidth ∧
      (placeLoop cfg g rand fuel k).2.1 < cfg.gridHeight := by
  have hx : ∀ k, u16 (rand k 0 cfg.gridWidth) < cfg.gridWidth := by
    intro k
    have h := hrand k 0 cfg.gridWidth (by exact_mod_cast hW)
    unfold u16
    omega
  have hy : ∀ k, u16 (rand k 0 cfg.gridHeight) < cfg.gridHeight := by
    intro k
    have h := hrand k 0 cfg.gridHeight (by exact_mod_cast hH)
    unfold u16
    omega
  intro fuel
  induction fuel with
  | zero => intro k; exact ⟨hx k, hy (k + 1)⟩
  | succ n ih =>
    intro k
    simp only [placeLoop]
    split_ifs with h
    · exact ih (k + 2)
    · exact ⟨hx k, hy (k + 1)⟩

/-- C4 (amended): particle positions always stay inside
`[0, gridWidth*spaceMultiplier) x [0, gridHeight*spaceMultiplier)`.
Part one: `runCycle` preserves containment for any random source, clip
and bounce behaviour (the axis clamp guarantees it).  Part two: a
successful random `addParticle` produces a contained position for every
random source satisfying the half-open contract `a ≤ rand(a,b) < b`
implemented by all renderers in the repository (`a + rand()%(b-a)`).
Under the spec's inclusive-range contract part two fails (see the
counterexample): `random_int16(0, spaceMultiplier)` may return
`spaceMultiplier` and push the position to the next cell, and
`random_int16(0, gridWidth)` may return `gridWidth`. -/
theorem C4_boundary_containment :
    (∀ (cfg : Cfg) (rand : Nat → Int → Int → Int) (clip : Int → Int → Int × Int)
        (bv : Int → Int) (g : Grid) (ps : List Particle),
      (∀ p ∈ ps, inb cfg p) →
      ∀ p ∈ (runCycle cfg rand clip bv g ps).2, inb cfg p) ∧
    (∀ (cfg : Cfg) (rand : Nat → Int → Int → Int) (colour : RGB) (vx vy : Int)
        (st : SimState),
      1 ≤ cfg.gridWidth → 1 ≤ cfg.gridHeight → 1 ≤ cfg.spaceMultiplier →
      cfg.gridWidth * cfg.spaceMultiplier ≤ 65536 →
      cfg.gridHeight * cfg.spaceMultiplier ≤ 65536 →
      (∀ k a b, a < b → a ≤ rand k a b ∧ rand k a b < b) →
      (∀ p ∈ st.particles, inb cfg p) →
      ∀ p ∈ (addParticle cfg rand colour vx vy st).particles, inb cfg p) := by
  constructor
  · intro cfg rand clip bv g ps h p hp
    exact positionPass_inb cfg bv _ g (velocityPass_inb cfg clip rand ps 0 h) p hp
  · intro cfg rand colour vx vy st hW hH hsm hWb hHb hrand h p hp
    have hWb' : cfg.gridWidth ≤ 65536 := le_trans (Nat.le_mul_of_pos_right _ hsm) hWb
    have hHb' : cfg.gridHeight ≤ 65536 := le_trans (Nat.le_mul_of_pos_right _ hsm) hHb
    have hplace := placeLoop_lt cfg st.grid rand hW hH hWb' hHb' hrand 2000 0
    rw [addParticle] at hp
    split_ifs at hp with hfree
    · rw [addParticleAt] at hp
      dsimp only at hp
      rcases List.mem_append.mp hp with hmem | hmem
      · exact h p hmem
      · have hr1 := hrand (placeLoop cfg st.grid rand 2000 0).2.2 0 cfg.spaceMultiplier
          (by exact_mod_cast hsm)
        have hr2 := hrand ((placeLoop cfg st.grid rand 2000 0).2.2 + 1) 0 cfg.spaceMultiplier
          (by exact_mod_cast hsm)
        have hxlt := hplace.1
        have hylt := hplace.2
        rcases List.mem_singleton.mp hmem with rfl
        constructor
        · show u16 ((((placeLoop cfg st.grid rand 2000 0).1 * cfg.spaceMultiplier : Nat) : Int) +
              rand (placeLoop cfg st.grid rand 2000 0).2.2 0 cfg.spaceMultiplier) <
            cfg.gridWidth * cfg.spaceMultiplier
          have hb : (placeLoop cfg st.grid rand 2000 0).1 * cfg.spaceMultiplier +
              cfg.spaceMultiplier ≤ cfg.gridWidth * cfg.spaceMultiplier := by
            have := Nat.succ_le_of_lt hxlt
            calc (placeLoop cfg st.grid rand 2000 0).1 * cfg.spaceMultiplier +
                cfg.spaceMultiplier
                = ((placeLoop cfg st.grid rand 2000 0).1 + 1) * cfg.spaceMultiplier := by ring
              _ ≤ cfg.gridWidth * cfg.spaceMultiplier := Nat.mul_le_mul_right _ this
          unfold u16
          omega
        · show u16 ((((placeLoop cfg st.grid rand 2000 0).2.1 * cfg.spaceMultiplier : Nat) : Int) +
              rand ((placeLoop cfg st.grid rand 2000 0).2.2 + 1) 0 cfg.spaceMultiplier) <
            cfg.gridHeight * cfg.spaceMultiplier
          have hb : (placeLoop cfg st.grid rand 2000 0).2.1 * cfg.spaceMultiplier +
              cfg.spaceMultiplier ≤ cfg.gridHeight * cfg.spaceMultiplier := by
            have := Nat.succ_le_of_lt hylt
            calc (placeLoop cfg st.grid rand 2000 0).2.1 * cfg.spaceMultiplier +
                cfg.spaceMultiplier
                = ((placeLoop cfg st.grid rand 2000 0).2.1 + 1) * cfg.spaceMultiplier := by ring
              _ ≤ cfg.gridHeight * cfg.spaceMultiplier := Nat.mul_le_mul_right _ this
          unfold u16
          omega
    · exact h p hp

/-- Counterexample for C4 as stated: the source `fun _ _ b => b`
satisfies the inclusive-range contract, yet one random `addParticle` on
an empty 16 x 16 grid (spaceMultiplier 256) stores a particle at
x = y = 4352, outside `[0, 4096)`. -/
theorem C4_counterexample :
    (∀ (k : Nat) (a b : Int), a ≤ b →
      a ≤ (fun (_ : Nat) (_ b : Int) => b) k a b ∧ (fun (_ : Nat) (_ b : Int) => b) k a b ≤ b) ∧
    (addParticle (mkCfg 16 16 0 10) (fun _ _ b => b) ⟨200, 0, 0⟩ 0 0
        ⟨[], fun _ => 0, []⟩).particles = [⟨4352, 4352, 0, 0⟩] ∧
    ¬ (4352 < (mkCfg 16 16 0 10).gridWidth * (mkCfg 16 16 0 10).spaceMultiplier) :=
  ⟨fun _ a b h => ⟨h, le_refl b⟩, by decide, by decide⟩

/-- Witness for C4: both parts applied at a concrete configuration. -/
theorem C4_boundary_containment_witness :
    (∀ p ∈ (runCycle (mkCfg 4 4 0 10) (fun _ _ _ => 0) (fun a b => (a, b)) (fun v => -v)
        (fun _ => 0) [⟨100, 100, 300, -300⟩]).2, inb (mkCfg 4 4 0 10) p) ∧
    (∀ p ∈ (addParticle (mkCfg 4 4 0 10) (fun _ a _ => a) ⟨9, 9, 9⟩ 0 0
        ⟨[], fun _ => 0, []⟩).particles, inb (mkCfg 4 4 0 10) p) :=
  ⟨C4_boundary_containment.1 (mkCfg 4 4 0 10) (fun _ _ _ => 0) (fun a b => (a, b))
      (fun v => -v) (fun _ => 0) [⟨100, 100, 300, -300⟩] (by decide),
    C4_boundary_containment.2 (mkCfg 4 4 0 10) (fun _ a _ => a) ⟨9, 9, 9⟩ 0 0
      ⟨[], fun _ => 0, []⟩ (by decide) (by decide) (by decide) (by decide) (by decide)
      (fun _ a _ h => ⟨le_refl a, h⟩) (by decide)⟩

/-! ## C2: the occupancy invariant

The plan: each particle's move either keeps its grid cell (and the
occupancy grid unchanged) or takes a cell that was free at decision time
(and swaps its colour code over).  Processing particles in order then
preserves pairwise-distinct cells.  This needs the grid to be at least 3
pixels wide — on a 2-pixel-wide grid a blocked diagonal move has
`|Δindex| = 1` and is treated as horizontal, desynchronising the particle
from the grid (see the counterexample) — and one step's per-axis motion
to stay within one cell, which the construction-time constants guarantee
(`velCap = 64*spaceMultiplier` and `spaceMultiplier ≥ 128` cover even the
`int32` overflow corner of the velocity clip at vx = vy = -32768). -/

lemma toInt16_range (n : Int) : -32768 ≤ toInt16 n ∧ toInt16 n ≤ 32767 := by
  unfold toInt16; omega

lemma toInt32_eq_self {n : Int} (h1 : -2147483648 ≤ n) (h2 : n ≤ 2147483647) :
    toInt32 n = n := by
  unfold toInt32; omega

/-- Positions that differ by at most `sm` have cell indices that differ
by at most one. -/
lemma div_close {a b sm : Nat} (hsm : 0 < sm) (h1 : a ≤ b + sm) (h2 : b ≤ a + sm) :
    a / sm ≤ b / sm + 1 ∧ b / sm ≤ a / sm + 1 := by
  constructor
  · have h := Nat.div_le_div_right (c := sm) h1
    rwa [Nat.add_div_right _ hsm] at h
  · have h := Nat.div_le_div_right (c := sm) h2
    rwa [Nat.add_div_right _ hsm] at h

/-- Classification of the index difference `dr*w + dc` for one-cell
steps on a grid at least 3 wide: difference 1 means no row change,
difference `w` means no column change, anything else non-zero means both
changed. -/
lemma delta_cases (w : Nat) (hw : 3 ≤ w) (dr dc : Int)
    (hdr : dr.natAbs ≤ 1) (hdc : dc.natAbs ≤ 1) :
    ((dr * w + dc).natAbs = 1 → dr = 0) ∧
    ((dr * w + dc).natAbs = w → dc = 0) ∧
    ((dr * w + dc).natAbs ≠ 0 ∧ (dr * w + dc).natAbs ≠ 1 ∧ (dr * w + dc).natAbs ≠ w →
      dr ≠ 0 ∧ dc ≠ 0) := by
  have h1 : dr = -1 ∨ dr = 0 ∨ dr = 1 := by omega
  have h2 : dc = -1 ∨ dc = 0 ∨ dc = 1 := by omega
  rcases h1 with rfl | rfl | rfl <;> rcases h2 with rfl | rfl | rfl <;>
    refine ⟨fun h => ?_, fun h => ?_, fun h => ?_⟩ <;> omega

/-- Cell indices `row * w + col` with columns below `w` are injective. -/
lemma cellIdx_inj (w r1 c1 r2 c2 : Nat) (hc1 : c1 < w) (hc2 : c2 < w)
    (h : r1 * w + c1 = r2 * w + c2) : r1 = r2 ∧ c1 = c2 := by
  have hr : r1 = r2 := by
    have e1 : (r1 * w + c1) / w = r1 := by
      rw [Nat.mul_comm r1 w, Nat.mul_add_div (by omega), Nat.div_eq_of_lt hc1]
      omega
    have e2 : (r2 * w + c2) / w = r2 := by
      rw [Nat.mul_comm r2 w, Nat.mul_add_div (by omega), Nat.div_eq_of_lt hc2]
      omega
    rw [← e1, ← e2, h]
  constructor
  · exact hr
  · subst hr; omega

/-- The clamped axis move lands within `spaceMultiplier` of the old
position when the velocity is bounded by `256 * spaceMultiplier`. -/
lemma axisStep_close (cfg : Cfg) (bv : Int → Int) (maxA pos : Nat) (v : Int)
    (hpos : pos ≤ maxA) (hv : v.natAbs ≤ 256 * cfg.spaceMultiplier)
    (hbound : maxA + 11 * cfg.spaceMultiplier < 65536) :
    (axisStep cfg bv maxA pos v).1 ≤ pos + cfg.spaceMultiplier ∧
      pos ≤ (axisStep cfg bv maxA pos v).1 + cfg.spaceMultiplier := by
  have hdv : (Int.tdiv v 256).natAbs ≤ cfg.spaceMultiplier := by
    rw [Int.natAbs_tdiv, show (256 : Int).natAbs = 256 from rfl]
    show v.natAbs / 256 ≤ cfg.spaceMultiplier
    omega
  have hn0 : (u16 ((pos : Int) + ((10 * cfg.spaceMultiplier : Nat) : Int) + Int.tdiv v 256) : Int)
      = (pos : Int) + ((10 * cfg.spaceMultiplier : Nat) : Int) + Int.tdiv v 256 := by
    unfold u16
    omega
  simp only [axisStep]
  split_ifs
  all_goals dsimp only
  all_goals omega

/-- The collision resolution records the particle in the cell of its
final position, and that cell is either its old cell (grid untouched
there) or one that was free in the grid at decision time.  Needs the
grid at least 3 wide and one-cell axis steps. -/
lemma resolveCollision_spec (cfg : Cfg) (bv : Int → Int) (g : Grid) (px py nx ny : Nat)
    (vx vy : Int)
    (hw : 3 ≤ cfg.gridWidth) (hsm : 0 < cfg.spaceMultiplier)
    (hpx : px < cfg.gridWidth * cfg.spaceMultiplier)
    (hnx : nx < cfg.gridWidth * cfg.spaceMultiplier)
    (hcx : nx / cfg.spaceMultiplier ≤ px / cfg.spaceMultiplier + 1 ∧
      px / cfg.spaceMultiplier ≤ nx / cfg.spaceMultiplier + 1)
    (hcy : ny / cfg.spaceMultiplier ≤ py / cfg.spaceMultiplier + 1 ∧
      py / cfg.spaceMultiplier ≤ ny / cfg.spaceMultiplier + 1) :
    cellIdx cfg (resolveCollision cfg bv g px py nx ny vx vy).nx
        (resolveCollision cfg bv g px py nx ny vx vy).ny =
      (resolveCollision cfg bv g px py nx ny vx vy).idx ∧
    ((resolveCollision cfg bv g px py nx ny vx vy).idx = cellIdx cfg px py ∨
      (g (resolveCollision cfg bv g px py nx ny vx vy).idx = 0 ∧
        (resolveCollision cfg bv g px py nx ny vx vy).idx ≠ cellIdx cfg px py)) := by
  simp only [resolveCollision, cellIdx]
  set w := cfg.gridWidth with hwdef
  set sm := cfg.spaceMultiplier with hsmdef
  set a := px / sm with ha
  set b := py / sm with hb
  set a2 := nx / sm with ha2
  set b2 := ny / sm with hb2
  have hcol : a < w := by rw [ha, Nat.div_lt_iff_lt_mul hsm]; omega
  have hcol2 : a2 < w := by rw [ha2, Nat.div_lt_iff_lt_mul hsm]; omega
  have hdr : ((b2 : Int) - (b : Int)).natAbs ≤ 1 := by omega
  have hdc : ((a2 : Int) - (a : Int)).natAbs ≤ 1 := by omega
  have hbridge : ((b2 * w + a2 : Nat) : Int) - ((b * w + a : Nat) : Int) =
      ((b2 : Int) - (b : Int)) * w + ((a2 : Int) - (a : Int)) := by
    push_cast
    ring
  have hcls := delta_cases w hw ((b2 : Int) - (b : Int)) ((a2 : Int) - (a : Int)) hdr hdc
  split_ifs with hg h1 h2 h3 h4 h5 h6 h7
  all_goals dsimp only
  all_goals try simp only [← ha, ← hb, ← ha2, ← hb2]
  · -- delta = 1: treated as a one-cell horizontal move, stays in place
    rw [hbridge] at h1
    have hr0 : b2 = b := by have := hcls.1 h1; omega
    refine ⟨?_, Or.inl trivial⟩
    rw [hr0]
  · -- delta = w: treated as a one-cell vertical move, stays in place
    rw [hbridge] at h2
    have hc0 : a2 = a := by have := hcls.2.1 h2; omega
    refine ⟨?_, Or.inl trivial⟩
    rw [hc0]
  · -- diagonal, X faster, X-only cell free: take it
    obtain ⟨hne, hocc⟩ := hg
    rw [hbridge] at h1 h2
    have h0 : (((b2 : Int) - b) * w + ((a2 : Int) - a)).natAbs ≠ 0 := by
      rw [← hbridge]
      omega
    obtain ⟨hdr0, hdc0⟩ := hcls.2.2 ⟨h0, h1, h2⟩
    refine ⟨trivial, Or.inr ⟨h4, fun h => ?_⟩⟩
    omega
  · -- diagonal, X faster, X taken, Y-only cell free: take it
    obtain ⟨hne, hocc⟩ := hg
    rw [hbridge] at h1 h2
    have h0 : (((b2 : Int) - b) * w + ((a2 : Int) - a)).natAbs ≠ 0 := by
      rw [← hbridge]
      omega
    obtain ⟨hdr0, hdc0⟩ := hcls.2.2 ⟨h0, h1, h2⟩
    refine ⟨trivial, Or.inr ⟨h5, fun h => ?_⟩⟩
    have hbw : b2 * w = b * w := by omega
    have hb2b : b2 = b := Nat.eq_of_mul_eq_mul_right (by omega) hbw
    omega
  · -- diagonal, X faster, both taken: stay
    exact ⟨trivial, Or.inl trivial⟩
  · -- diagonal, Y faster, Y-only cell free: take it
    obtain ⟨hne, hocc⟩ := hg
    rw [hbridge] at h1 h2
    have h0 : (((b2 : Int) - b) * w + ((a2 : Int) - a)).natAbs ≠ 0 := by
      rw [← hbridge]
      omega
    obtain ⟨hdr0, hdc0⟩ := hcls.2.2 ⟨h0, h1, h2⟩
    refine ⟨trivial, Or.inr ⟨h6, fun h => ?_⟩⟩
    have hbw : b2 * w = b * w := by omega
    have hb2b : b2 = b := Nat.eq_of_mul_eq_mul_right (by omega) hbw
    omega
  · -- diagonal, Y faster, Y taken, X-only cell free: take it
    obtain ⟨hne, hocc⟩ := hg
    rw [hbridge] at h1 h2
    have h0 : (((b2 : Int) - b) * w + ((a2 : Int) - a)).natAbs ≠ 0 := by
      rw [← hbridge]
      omega
    obtain ⟨hdr0, hdc0⟩ := hcls.2.2 ⟨h0, h1, h2⟩
    refine ⟨trivial, Or.inr ⟨h7, fun h => ?_⟩⟩
    omega
  · -- diagonal, Y faster, both taken: stay
    exact ⟨trivial, Or.inl trivial⟩
  · -- no collision: the candidate cell is the old cell or free
    by_cases heq : b * w + a = b2 * w + a2
    · exact ⟨trivial, Or.inl heq.symm⟩
    · have hfree : g (b2 * w + a2) = 0 := by
        by_contra hocc
        exact hg ⟨heq, hocc⟩
      exact ⟨trivial, Or.inr ⟨hfree, fun h => heq h.symm⟩⟩

lemma pcell_def (cfg : Cfg) (p : Particle) : pcell cfg p = cellIdx cfg p.x p.y := rfl

/-- One particle's move either keeps its grid cell with the grid
untouched, or takes a cell that was free, swapping its colour code from
the old cell to the new one. -/
lemma moveParticle_spec (cfg : Cfg) (bv : Int → Int) (g : Grid) (p : Particle)
    (hw : 3 ≤ cfg.gridWidth) (hsm : 0 < cfg.spaceMultiplier)
    (hWb : cfg.gridWidth * cfg.spaceMultiplier + 11 * cfg.spaceMultiplier ≤ 65536)
    (hHb : cfg.gridHeight * cfg.spaceMultiplier + 11 * cfg.spaceMultiplier ≤ 65536)
    (hin : inb cfg p)
    (hvx : p.vx.natAbs ≤ 256 * cfg.spaceMultiplier)
    (hvy : p.vy.natAbs ≤ 256 * cfg.spaceMultiplier) :
    (pcell cfg (moveParticle cfg bv g p).2 = pcell cfg p ∧ (moveParticle cfg bv g p).1 = g) ∨
    (g (pcell cfg (moveParticle cfg bv g p).2) = 0 ∧
      pcell cfg (moveParticle cfg bv g p).2 ≠ pcell cfg p ∧
      (moveParticle cfg bv g p).1 =
        setPix (setPix g (pcell cfg p) 0) (pcell cfg (moveParticle cfg bv g p).2)
          (g (pcell cfg p))) := by
  obtain ⟨hpx, hpy⟩ := hin
  have hW1 : 1 ≤ cfg.gridWidth * cfg.spaceMultiplier := by omega
  have hxle := axisStep_fst_le cfg bv (cfg.gridWidth * cfg.spaceMultiplier - 1) p.x p.vx
  have hyle := axisStep_fst_le cfg bv (cfg.gridHeight * cfg.spaceMultiplier - 1) p.y p.vy
  have hxc := axisStep_close cfg bv (cfg.gridWidth * cfg.spaceMultiplier - 1) p.x p.vx
    (by omega) hvx (by omega)
  have hyc := axisStep_close cfg bv (cfg.gridHeight * cfg.spaceMultiplier - 1) p.y p.vy
    (by omega) hvy (by omega)
  have hdx := div_close hsm hxc.1 hxc.2
  have hdy := div_close hsm hyc.1 hyc.2
  have hspec := resolveCollision_spec cfg bv g p.x p.y
    (axisStep cfg bv (cfg.gridWidth * cfg.spaceMultiplier - 1) p.x p.vx).1
    (axisStep cfg bv (cfg.gridHeight * cfg.spaceMultiplier - 1) p.y p.vy).1
    (axisStep cfg bv (cfg.gridWidth * cfg.spaceMultiplier - 1) p.x p.vx).2
    (axisStep cfg bv (cfg.gridHeight * cfg.spaceMultiplier - 1) p.y p.vy).2
    hw hsm hpx (by omega) hdx hdy
  simp only [moveParticle]
  rcases hspec.2 with hold | ⟨hfree, hne⟩
  · left
    constructor
    · show cellIdx cfg _ _ = pcell cfg p
      rw [hspec.1, hold, pcell_def]
    · dsimp only
      rw [if_neg (by rw [pcell_def]; exact fun hcon => hcon hold.symm)]
  · right
    refine ⟨?_, ?_, ?_⟩
    · show g (cellIdx cfg _ _) = 0
      rw [hspec.1]
      exact hfree
    · show cellIdx cfg _ _ ≠ pcell cfg p
      rw [hspec.1, pcell_def]
      exact hne
    · dsimp only
      rw [if_pos (by rw [pcell_def]; exact fun hcon => hne (hcon.symm))]
      have h1 := hspec.1
      simp only [pcell, cellIdx] at h1 ⊢
      rw [h1]

lemma setPix_self (g : Grid) (i v : Nat) : setPix g i v i = v := by simp [setPix]

lemma setPix_other (g : Grid) (i v j : Nat) (h : j ≠ i) : setPix g i v j = g j := by
  simp [setPix, h]

/-- The position pass preserves the occupancy invariant: if every
particle sits on a distinct occupied cell, then afterwards every
particle again sits on a distinct occupied cell; moreover occupied cells
belonging to no processed particle are untouched and stay unclaimed. -/
lemma positionPass_invariant (cfg : Cfg) (bv : Int → Int)
    (hw : 3 ≤ cfg.gridWidth) (hsm : 0 < cfg.spaceMultiplier)
    (hWb : cfg.gridWidth * cfg.spaceMultiplier + 11 * cfg.spaceMultiplier ≤ 65536)
    (hHb : cfg.gridHeight * cfg.spaceMultiplier + 11 * cfg.spaceMultiplier ≤ 65536) :
    ∀ (ps : List Particle) (g : Grid),
      (∀ p ∈ ps, inb cfg p ∧ p.vx.natAbs ≤ 256 * cfg.spaceMultiplier ∧
        p.vy.natAbs ≤ 256 * cfg.spaceMultiplier) →
      (∀ p ∈ ps, g (pcell cfg p) ≠ 0) →
      ps.Pairwise (fun p q => pcell cfg p ≠ pcell cfg q) →
      ((∀ q ∈ (positionPass cfg bv g ps).2, (positionPass cfg bv g ps).1 (pcell cfg q) ≠ 0) ∧
        (positionPass cfg bv g ps).2.Pairwise (fun p q => pcell cfg p ≠ pcell cfg q) ∧
        ∀ c, g c ≠ 0 → (∀ p ∈ ps, pcell cfg p ≠ c) →
          ((positionPass cfg bv g ps).1 c = g c ∧
            ∀ q ∈ (positionPass cfg bv g ps).2, pcell cfg q ≠ c)) := by
  intro ps
  induction ps with
  | nil =>
    intro g hb ho hp
    refine ⟨by simp [positionPass], by simp [positionPass], ?_⟩
    intro c hc hav
    exact ⟨rfl, by simp [positionPass]⟩
  | cons p rest ih =>
    intro g hb ho hp
    have hbp := hb p (List.mem_cons_self p rest)
    have hon := ho p (List.mem_cons_self p rest)
    have hbrest : ∀ q ∈ rest, inb cfg q ∧ q.vx.natAbs ≤ 256 * cfg.spaceMultiplier ∧
        q.vy.natAbs ≤ 256 * cfg.spaceMultiplier :=
      fun q hq => hb q (List.mem_cons_of_mem p hq)
    have horest : ∀ q ∈ rest, g (pcell cfg q) ≠ 0 :=
      fun q hq => ho q (List.mem_cons_of_mem p hq)
    have hpav : ∀ q ∈ rest, pcell cfg q ≠ pcell cfg p :=
      fun q hq => ((List.pairwise_cons.mp hp).1 q hq).symm
    have hptail : rest.Pairwise (fun a b => pcell cfg a ≠ pcell cfg b) :=
      (List.pairwise_cons.mp hp).2
    simp only [positionPass]
    rcases moveParticle_spec cfg bv g p hw hsm hWb hHb hbp.1 hbp.2.1 hbp.2.2 with
      ⟨hcell, hgrid⟩ | ⟨hfree, hne, hgrid⟩
    · -- the particle keeps its cell, the grid is untouched
      have hro : ∀ q ∈ rest, (moveParticle cfg bv g p).1 (pcell cfg q) ≠ 0 := by
        rw [hgrid]; exact horest
      obtain ⟨ih1, ih2, ih3⟩ := ih (moveParticle cfg bv g p).1 hbrest hro hptail
      have hext := ih3 (pcell cfg p) (by rw [hgrid]; exact hon) hpav
      obtain ⟨hg2, havoid⟩ := hext
      refine ⟨?_, ?_, ?_⟩
      · intro q hq
        rcases List.mem_cons.mp hq with rfl | hq
        · rw [hcell, hg2, hgrid]
          exact hon
        · exact ih1 q hq
      · refine List.pairwise_cons.mpr ⟨?_, ih2⟩
        intro q hq
        rw [hcell]
        exact fun h => havoid q hq h.symm
      · intro c hc hav
        have hcp : pcell cfg p ≠ c := hav p (List.mem_cons_self p rest)
        have havr : ∀ q ∈ rest, pcell cfg q ≠ c :=
          fun q hq => hav q (List.mem_cons_of_mem p hq)
        obtain ⟨e1, av2⟩ := ih3 c (by rw [hgrid]; exact hc) havr
        refine ⟨by rw [e1, hgrid], ?_⟩
        intro q hq
        rcases List.mem_cons.mp hq with rfl | hq
        · rw [hcell]; exact hcp
        · exact av2 q hq
    · -- the particle moves to a previously free cell
      have hnewr : ∀ q ∈ rest, pcell cfg q ≠ pcell cfg (moveParticle cfg bv g p).2 :=
        fun q hq h => (horest q hq) (h ▸ hfree)
      have hro : ∀ q ∈ rest, (moveParticle cfg bv g p).1 (pcell cfg q) ≠ 0 := by
        intro q hq
        rw [hgrid, setPix_other _ _ _ _ (hnewr q hq), setPix_other _ _ _ _ (hpav q hq)]
        exact horest q hq
      obtain ⟨ih1, ih2, ih3⟩ := ih (moveParticle cfg bv g p).1 hbrest hro hptail
      have hm1new : (moveParticle cfg bv g p).1 (pcell cfg (moveParticle cfg bv g p).2) =
          g (pcell cfg p) := by
        rw [hgrid, setPix_self]
      obtain ⟨hg2, havoid⟩ := ih3 (pcell cfg (moveParticle cfg bv g p).2)
        (by rw [hm1new]; exact hon) hnewr
      refine ⟨?_, ?_, ?_⟩
      · intro q hq
        rcases List.mem_cons.mp hq with rfl | hq
        · rw [hg2, hm1new]
          exact hon
        · exact ih1 q hq
      · refine List.pairwise_cons.mpr ⟨?_, ih2⟩
        intro q hq
        exact fun h => havoid q hq h.symm
      · intro c hc hav
        have hcp : pcell cfg p ≠ c := hav p (List.mem_cons_self p rest)
        have hcnew : c ≠ pcell cfg (moveParticle cfg bv g p).2 := by
          intro h
          rw [h] at hc
          exact hc hfree
        have havr : ∀ q ∈ rest, pcell cfg q ≠ c :=
          fun q hq => hav q (List.mem_cons_of_mem p hq)
        have hm1c : (moveParticle cfg bv g p).1 c = g c := by
          rw [hgrid, setPix_other _ _ _ _ hcnew, setPix_other _ _ _ _ (fun h => hcp h.symm)]
        obtain ⟨e1, av2⟩ := ih3 c (by rw [hm1c]; exact hc) havr
        refine ⟨by rw [e1, hm1c], ?_⟩
        intro q hq
        rcases List.mem_cons.mp hq with rfl | hq
        · exact fun h => hcnew h.symm
        · exact av2 q hq

/-- When `spaceMultiplier >= 128` every int16 velocity is within the
one-cell-per-cycle budget, and clipped velocities are within `velCap`. -/
lemma velUpdate_bound (cfg : Cfg) (clip : Int → Int → Int × Int) (r1 r2 : Int) (p : Particle)
    (hsm : 128 ≤ cfg.spaceMultiplier)
    (hclip : ∀ a b, (clip a b).1.natAbs ≤ cfg.velCap ∧ (clip a b).2.natAbs ≤ cfg.velCap)
    (hcap : cfg.velCap ≤ 256 * cfg.spaceMultiplier) :
    (velUpdate cfg clip r1 r2 p).vx.natAbs ≤ 256 * cfg.spaceMultiplier ∧
      (velUpdate cfg clip r1 r2 p).vy.natAbs ≤ 256 * cfg.spaceMultiplier := by
  simp only [velUpdate]
  split_ifs with h
  · dsimp only
    exact ⟨le_trans (hclip _ _).1 hcap, le_trans (hclip _ _).2 hcap⟩
  · dsimp only
    have h1 := toInt16_range (p.vx + toInt16 (cfg.accelX + r1))
    have h2 := toInt16_range (p.vy + toInt16 (cfg.accelY + r2))
    constructor <;> omega

lemma velocityPass_bound (cfg : Cfg) (clip : Int → Int → Int × Int)
    (rand : Nat → Int → Int → Int)
    (hsm : 128 ≤ cfg.spaceMultiplier)
    (hclip : ∀ a b, (clip a b).1.natAbs ≤ cfg.velCap ∧ (clip a b).2.natAbs ≤ cfg.velCap)
    (hcap : cfg.velCap ≤ 256 * cfg.spaceMultiplier) :
    ∀ (ps : List Particle) (i : Nat), ∀ q ∈ velocityPass cfg clip rand i ps,
      q.vx.natAbs ≤ 256 * cfg.spaceMultiplier ∧
        q.vy.natAbs ≤ 256 * cfg.spaceMultiplier := by
  intro ps
  induction ps with
  | nil => intro i q hq; simp [velocityPass] at hq
  | cons p rest ih =>
    intro i q hq
    simp only [velocityPass, List.mem_cons] at hq
    rcases hq with rfl | hq
    · exact velUpdate_bound cfg clip _ _ p hsm hclip hcap
    · exact ih (i + 1) q hq

/-- The velocity pass never moves a particle, so the cell map is
unchanged. -/
lemma velocityPass_pcell (cfg : Cfg) (clip : Int → Int → Int × Int)
    (rand : Nat → Int → Int → Int) :
    ∀ (ps : List Particle) (i : Nat),
      (velocityPass cfg clip rand i ps).map (pcell cfg) = ps.map (pcell cfg) := by
  intro ps
  induction ps with
  | nil => intro i; rfl
  | cons p rest ih =>
    intro i
    simp only [velocityPass, List.map_cons, ih (i + 1)]
    have hpc : pcell cfg (velUpdate cfg clip
        (rand (2 * i) (toInt16 (-shakeFactor cfg)) (toInt16 (shakeFactor cfg + 1)))
        (rand (2 * i + 1) (toInt16 (-shakeFactor cfg)) (toInt16 (shakeFactor cfg + 1))) p) =
        pcell cfg p := by
      simp only [pcell, velUpdate_x, velUpdate_y]
    rw [hpc]

/-- C2: Occupancy invariant, corrected.  If every live particle occupies
a distinct occupied grid cell, then after one `runCycle` the particles
again occupy pairwise distinct cells — PROVIDED the grid is at least 3
cells wide (on a 2-wide grid a diagonal step is misclassified as a
horizontal one, breaking the invariant: see the counterexample), the
space multiplier is at least 128 and the velocity cap at most
`256 * spaceMultiplier` (so no particle crosses more than one cell per
axis per cycle), the particle space plus the 10-cell clamp buffer fits in
`uint16_t`, and the velocity clip oracle honours the cap. -/
theorem C2_occupancy_invariant (cfg : Cfg) (rand : Nat → Int → Int → Int)
    (clip : Int → Int → Int × Int) (bv : Int → Int) (g : Grid) (ps : List Particle)
    (hw : 3 ≤ cfg.gridWidth) (hsm : 128 ≤ cfg.spaceMultiplier)
    (hcap : cfg.velCap ≤ 256 * cfg.spaceMultiplier)
    (hWb : cfg.gridWidth * cfg.spaceMultiplier + 11 * cfg.spaceMultiplier ≤ 65536)
    (hHb : cfg.gridHeight * cfg.spaceMultiplier + 11 * cfg.spaceMultiplier ≤ 65536)
    (hclip : ∀ a b : Int, (clip a b).1.natAbs ≤ cfg.velCap ∧ (clip a b).2.natAbs ≤ cfg.velCap)
    (hin : ∀ p ∈ ps, inb cfg p)
    (hocc : ∀ p ∈ ps, g (pcell cfg p) ≠ 0)
    (hdist : ps.Pairwise (fun p q => pcell cfg p ≠ pcell cfg q)) :
    (runCycle cfg rand clip bv g ps).2.Pairwise
      (fun p q => pcell cfg p ≠ pcell cfg q) := by
  have hsm0 : 0 < cfg.spaceMultiplier := by omega
  simp only [runCycle]
  have hbd : ∀ q ∈ velocityPass cfg clip rand 0 ps,
      inb cfg q ∧ q.vx.natAbs ≤ 256 * cfg.spaceMultiplier ∧
        q.vy.natAbs ≤ 256 * cfg.spaceMultiplier := by
    intro q hq
    exact ⟨velocityPass_inb cfg clip rand ps 0 hin q hq,
      velocityPass_bound cfg clip rand hsm hclip hcap ps 0 q hq⟩
  have hoc : ∀ q ∈ velocityPass cfg clip rand 0 ps, g (pcell cfg q) ≠ 0 := by
    intro q hq
    have hmem : pcell cfg q ∈ ps.map (pcell cfg) := by
      rw [← velocityPass_pcell cfg clip rand ps 0]
      exact List.mem_map_of_mem _ hq
    obtain ⟨r, hr, hre⟩ := List.mem_map.mp hmem
    rw [← hre]
    exact hocc r hr
  have hpw : (velocityPass cfg clip rand 0 ps).Pairwise
      (fun p q => pcell cfg p ≠ pcell cfg q) := by
    have h1 : (ps.map (pcell cfg)).Pairwise (fun a b => a ≠ b) :=
      List.pairwise_map.mpr hdist
    have h2 : ((velocityPass cfg clip rand 0 ps).map (pcell cfg)).Pairwise
        (fun a b => a ≠ b) := by
      rw [velocityPass_pcell]
      exact h1
    exact List.pairwise_map.mp h2
  exact (positionPass_invariant cfg bv hw hsm0 hWb hHb
    (velocityPass cfg clip rand 0 ps) g hbd hoc hpw).2.1

/-- C2, counterexample to the unqualified claim: on the 2x4 grid
produced by the constructor for a 2x4 matrix, three particles on
distinct occupied cells exactly matching the grid, zero shake and
acceleration, full bounce.  Particle 0 at (256,255) with velocity
(-256,256) moves diagonally down-left into occupied cell 2; since
`gridWidth = 2` the index delta of that diagonal move is 1, the
resolution misreads it as a pure X move and re-resolves the particle to
(256,256) — which lies in cell 3, already occupied by particle 2. -/
theorem C2_counterexample :
    (∀ p ∈ ([⟨256,255,-256,256⟩, ⟨0,300,0,0⟩, ⟨300,300,0,0⟩] : List Particle),
      (fun i => if i = 1 then 1 else if i = 2 then 2 else if i = 3 then 3 else 0 : Grid)
        (pcell (mkCfg 2 4 0 255) p) ≠ 0) ∧
    (∀ c < 8, (fun i => if i = 1 then 1 else if i = 2 then 2 else if i = 3 then 3 else 0 : Grid) c ≠ 0 →
      ∃ p ∈ ([⟨256,255,-256,256⟩, ⟨0,300,0,0⟩, ⟨300,300,0,0⟩] : List Particle),
        pcell (mkCfg 2 4 0 255) p = c) ∧
    ([⟨256,255,-256,256⟩, ⟨0,300,0,0⟩, ⟨300,300,0,0⟩] : List Particle).Pairwise
      (fun p q => pcell (mkCfg 2 4 0 255) p ≠ pcell (mkCfg 2 4 0 255) q) ∧
    ¬ (runCycle (mkCfg 2 4 0 255) (fun _ _ _ => 0) (fun a b => (a, b)) (fun v => -v)
        (fun i => if i = 1 then 1 else if i = 2 then 2 else if i = 3 then 3 else 0)
        [⟨256,255,-256,256⟩, ⟨0,300,0,0⟩, ⟨300,300,0,0⟩]).2.Pairwise
      (fun p q => pcell (mkCfg 2 4 0 255) p ≠ pcell (mkCfg 2 4 0 255) q) := by
  refine ⟨by decide, ?_, by decide, by decide⟩
  intro c hc
  interval_cases c <;> simp <;> decide

theorem C2_occupancy_invariant_witness :
    (runCycle (mkCfg 3 3 0 255) (fun _ _ _ => 0) (fun _ _ => ((0 : Int), (0 : Int)))
      (fun v => -v) (fun i => if i = 0 then 1 else if i = 4 then 2 else 0)
      [⟨0,0,256,256⟩, ⟨300,300,0,0⟩]).2.Pairwise
      (fun p q => pcell (mkCfg 3 3 0 255) p ≠ pcell (mkCfg 3 3 0 255) q) :=
  C2_occupancy_invariant (mkCfg 3 3 0 255) (fun _ _ _ => 0)
    (fun _ _ => ((0 : Int), (0 : Int))) (fun v => -v)
    (fun i => if i = 0 then 1 else if i = 4 then 2 else 0)
    [⟨0,0,256,256⟩, ⟨300,300,0,0⟩]
    (by decide) (by decide) (by decide) (by decide) (by decide)
    (fun a b => ⟨Nat.zero_le _, Nat.zero_le _⟩)
    (by decide) (by decide) (by decide)

/-! ## C10: the frame effect of `clearParticles` -/

lemma setPix_id (g : Grid) (i : Nat) : setPix g i (g i) = g := by
  funext j
  unfold setPix
  split_ifs with h
  · rw [h]
  · rfl

lemma offset_div {sm : Nat} (x r : Nat) (hsm : 0 < sm) (hr : r < sm) :
    (x * sm + r) / sm = x := by
  rw [Nat.mul_comm, Nat.mul_add_div hsm, Nat.div_eq_of_lt hr, Nat.add_zero]

/-- On a duplicate-free palette, asking for an existing (non-black) entry
returns its own 1-based index and changes nothing. -/
lemma getColourId_getD (pal : List RGB) (k : Nat) (hk : k < pal.length)
    (hnd : pal.Nodup) (hb : pal.getD k black ≠ black) :
    getColourId pal (pal.getD k black) = (k + 1, pal, false) := by
  have hmem : pal.getD k black ∈ pal := by
    rw [List.getD_eq_getElem pal black hk]
    exact List.getElem_mem hk
  rcases gciLoop_mem (pal.getD k black) (decide (pal.length < maxColours - 1)) pal hmem 1 100 0
    with ⟨j, hj, hget, hval⟩
  have hjk : j = k := by
    apply (List.Nodup.getElem_inj_iff hnd).mp
    rw [← List.getD_eq_getElem pal black hj, ← List.getD_eq_getElem pal black hk, hget]
  rw [hjk] at hval
  have hne : ¬(1 + k = 0) := by omega
  simp only [getColourId, if_neg hb, hval, if_neg hne]
  rw [Nat.add_comm 1 k]

/-- When the cell coordinates are on the grid and the random offsets obey
the half-open contract, `addParticleAt` appends exactly one particle in
the addressed cell and marks that cell with the resolved colour id. -/
lemma addParticleAt_eq (cfg : Cfg) (r1 r2 : Int) (x y : Nat) (colour : RGB) (vx vy : Int)
    (st : SimState) (hx : x < cfg.gridWidth) (hy : y < cfg.gridHeight)
    (hsm : 1 ≤ cfg.spaceMultiplier)
    (hr1 : 0 ≤ r1 ∧ r1 < (cfg.spaceMultiplier : Int))
    (hr2 : 0 ≤ r2 ∧ r2 < (cfg.spaceMultiplier : Int))
    (hWs : cfg.gridWidth * cfg.spaceMultiplier ≤ 65536)
    (hHs : cfg.gridHeight * cfg.spaceMultiplier ≤ 65536) :
    addParticleAt cfg r1 r2 x y colour vx vy st =
      { particles := st.particles ++ [⟨x * cfg.spaceMultiplier + r1.toNat,
          y * cfg.spaceMultiplier + r2.toNat, vx, vy⟩],
        grid := setPix st.grid (y * cfg.gridWidth + x) (getColourId st.pal colour).1,
        pal := (getColourId st.pal colour).2.1 } := by
  have hxb : x * cfg.spaceMultiplier + cfg.spaceMultiplier ≤ 65536 := by
    calc x * cfg.spaceMultiplier + cfg.spaceMultiplier
        = (x + 1) * cfg.spaceMultiplier := by ring
      _ ≤ cfg.gridWidth * cfg.spaceMultiplier :=
          Nat.mul_le_mul (Nat.succ_le_of_lt hx) (le_refl _)
      _ ≤ 65536 := hWs
  have hyb : y * cfg.spaceMultiplier + cfg.spaceMultiplier ≤ 65536 := by
    calc y * cfg.spaceMultiplier + cfg.spaceMultiplier
        = (y + 1) * cfg.spaceMultiplier := by ring
      _ ≤ cfg.gridHeight * cfg.spaceMultiplier :=
          Nat.mul_le_mul (Nat.succ_le_of_lt hy) (le_refl _)
      _ ≤ 65536 := hHs
  have hpx : u16 (((x * cfg.spaceMultiplier : Nat) : Int) + r1) =
      x * cfg.spaceMultiplier + r1.toNat := by
    unfold u16
    omega
  have hpy : u16 (((y * cfg.spaceMultiplier : Nat) : Int) + r2) =
      y * cfg.spaceMultiplier + r2.toNat := by
    unfold u16
    omega
  have hdx : (x * cfg.spaceMultiplier + r1.toNat) / cfg.spaceMultiplier = x :=
    offset_div x r1.toNat (by omega) (by omega)
  have hdy : (y * cfg.spaceMultiplier + r2.toNat) / cfg.spaceMultiplier = y :=
    offset_div y r2.toNat (by omega) (by omega)
  simp only [addParticleAt, hpx, hpy, hdx, hdy]

lemma scanOrder_mem (cfg : Cfg) :
    ∀ xy ∈ scanOrder cfg, xy.1 < cfg.gridWidth ∧ xy.2 < cfg.gridHeight := by
  intro xy hxy
  simp only [scanOrder, List.mem_flatMap, List.mem_map, List.mem_range] at hxy
  obtain ⟨y, hy, x, hx, rfl⟩ := hxy
  exact ⟨hx, hy⟩

/-- `imgToParticles`' scan over a stale grid with a well-formed palette
leaves the grid and the palette untouched and appends exactly one
particle per visited non-zero cell, housed in that cell. -/
lemma imgScan_spec (cfg : Cfg) (rand : Nat → Int → Int → Int) (G : Grid) (P : List RGB)
    (hsm : 1 ≤ cfg.spaceMultiplier)
    (hWs : cfg.gridWidth * cfg.spaceMultiplier ≤ 65536)
    (hHs : cfg.gridHeight * cfg.spaceMultiplier ≤ 65536)
    (hrand : ∀ (k : Nat) (a b : Int), a < b → a ≤ rand k a b ∧ rand k a b < b)
    (hcode : ∀ i, G i < 256 ∧ G i ≤ P.length)
    (hnb : ∀ e ∈ P, e ≠ black) (hnd : P.Nodup) :
    ∀ (L : List (Nat × Nat)) (k : Nat) (ps : List Particle),
      (∀ xy ∈ L, xy.1 < cfg.gridWidth ∧ xy.2 < cfg.gridHeight) →
      (imgScan cfg rand L k ⟨ps, G, P⟩).grid = G ∧
      (imgScan cfg rand L k ⟨ps, G, P⟩).pal = P ∧
      (imgScan cfg rand L k ⟨ps, G, P⟩).particles.map (pcell cfg) =
        ps.map (pcell cfg) ++
          (L.filter (fun xy => G (xy.2 * cfg.gridWidth + xy.1) != 0)).map
            (fun xy => xy.2 * cfg.gridWidth + xy.1) := by
  intro L
  induction L with
  | nil =>
    intro k ps hL
    exact ⟨rfl, rfl, by simp [imgScan]⟩
  | cons xy rest ih =>
    intro k ps hL
    obtain ⟨x, y⟩ := xy
    have hx := (hL (x, y) (List.mem_cons_self _ _)).1
    have hy := (hL (x, y) (List.mem_cons_self _ _)).2
    have hLr : ∀ z ∈ rest, z.1 < cfg.gridWidth ∧ z.2 < cfg.gridHeight :=
      fun z hz => hL z (List.mem_cons_of_mem _ hz)
    have hcd := hcode (y * cfg.gridWidth + x)
    have hmod : G (y * cfg.gridWidth + x) % 256 = G (y * cfg.gridWidth + x) :=
      Nat.mod_eq_of_lt hcd.1
    by_cases hc : G (y * cfg.gridWidth + x) = 0
    · have hstep : imgScan cfg rand ((x, y) :: rest) k ⟨ps, G, P⟩ =
          imgScan cfg rand rest k ⟨ps, G, P⟩ := by
        simp only [imgScan]
        rw [hmod, if_neg (by omega)]
      rw [hstep]
      obtain ⟨ih1, ih2, ih3⟩ := ih k ps hLr
      refine ⟨ih1, ih2, ?_⟩
      rw [ih3, List.filter_cons]
      simp [hc]
    · have hro1 := hrand k 0 cfg.spaceMultiplier (by exact_mod_cast hsm)
      have hro2 := hrand (k + 1) 0 cfg.spaceMultiplier (by exact_mod_cast hsm)
      have hcol : getColour P (G (y * cfg.gridWidth + x)) =
          P.getD (G (y * cfg.gridWidth + x) - 1) black := by
        unfold getColour
        rw [if_neg hc, if_pos hcd.2]
      have hmem' : G (y * cfg.gridWidth + x) - 1 < P.length := by omega
      have hbk : P.getD (G (y * cfg.gridWidth + x) - 1) black ≠ black := by
        have hin : P.getD (G (y * cfg.gridWidth + x) - 1) black ∈ P := by
          rw [List.getD_eq_getElem P black hmem']
          exact List.getElem_mem hmem'
        exact hnb _ hin
      have hgci : getColourId P (P.getD (G (y * cfg.gridWidth + x) - 1) black) =
          (G (y * cfg.gridWidth + x) - 1 + 1, P, false) :=
        getColourId_getD P _ hmem' hnd hbk
      have hg1 : G (y * cfg.gridWidth + x) - 1 + 1 = G (y * cfg.gridWidth + x) := by omega
      have hadd := addParticleAt_eq cfg (rand k 0 cfg.spaceMultiplier)
        (rand (k + 1) 0 cfg.spaceMultiplier) x y
        (getColour P (G (y * cfg.gridWidth + x))) 0 0 ⟨ps, G, P⟩ hx hy hsm hro1 hro2 hWs hHs
      rw [hcol] at hadd
      simp only [hgci, hg1] at hadd
      have hadd2 : addParticleAt cfg (rand k 0 cfg.spaceMultiplier)
          (rand (k + 1) 0 cfg.spaceMultiplier) x y
          (getColour P (G (y * cfg.gridWidth + x))) 0 0 ⟨ps, G, P⟩ =
          ⟨ps ++ [⟨x * cfg.spaceMultiplier + (rand k 0 cfg.spaceMultiplier).toNat,
            y * cfg.spaceMultiplier + (rand (k + 1) 0 cfg.spaceMultiplier).toNat, 0, 0⟩],
            G, P⟩ := by
        rw [hcol, hadd]
        simp only [SimState.mk.injEq]
        exact ⟨trivial, setPix_id G _, trivial⟩
      have hstep : imgScan cfg rand ((x, y) :: rest) k ⟨ps, G, P⟩ =
          imgScan cfg rand rest (k + 2)
            ⟨ps ++ [⟨x * cfg.spaceMultiplier + (rand k 0 cfg.spaceMultiplier).toNat,
              y * cfg.spaceMultiplier + (rand (k + 1) 0 cfg.spaceMultiplier).toNat, 0, 0⟩],
              G, P⟩ := by
        simp only [imgScan]
        rw [hmod, if_pos (Nat.pos_of_ne_zero hc), hadd2]
      rw [hstep]
      obtain ⟨ih1, ih2, ih3⟩ := ih (k + 2) _ hLr
      refine ⟨ih1, ih2, ?_⟩
      rw [ih3, List.filter_cons]
      have hq : pcell cfg ⟨x * cfg.spaceMultiplier + (rand k 0 cfg.spaceMultiplier).toNat,
          y * cfg.spaceMultiplier + (rand (k + 1) 0 cfg.spaceMultiplier).toNat, 0, 0⟩ =
          y * cfg.gridWidth + x := by
        unfold pcell cellIdx
        dsimp only
        rw [offset_div x _ (by omega) (by omega), offset_div y _ (by omega) (by omega)]
      simp [hc, hq]

/-- C10: `clearParticles` zeroes the particle store and nothing else —
the occupancy grid (including the cells of the deleted particles) and the
palette are untouched.  Consequently (b) a subsequent random
`addParticle` still treats the stale non-zero cells as occupied: any
particle it creates lands on a cell that is free in the stale grid; and
(c) `imgToParticles` recreates exactly one particle per stale non-zero
cell, in scan order, leaving the grid and the palette unchanged.  The
random source is half-open (`a + rand() % (b - a)`), as every renderer in
the repository implements; the palette is duplicate-free with non-black
entries and covers every colour code stored in the grid. -/
theorem C10_clear_frame_effect (cfg : Cfg) (rand : Nat → Int → Int → Int)
    (colour : RGB) (vx vy : Int) (st : SimState)
    (hW : 1 ≤ cfg.gridWidth) (hH : 1 ≤ cfg.gridHeight) (hsm : 1 ≤ cfg.spaceMultiplier)
    (hWs : cfg.gridWidth * cfg.spaceMultiplier ≤ 65536)
    (hHs : cfg.gridHeight * cfg.spaceMultiplier ≤ 65536)
    (hrand : ∀ (k : Nat) (a b : Int), a < b → a ≤ rand k a b ∧ rand k a b < b)
    (hcode : ∀ i, st.grid i < 256 ∧ st.grid i ≤ st.pal.length)
    (hnb : ∀ e ∈ st.pal, e ≠ black) (hnd : st.pal.Nodup) :
    ((clearParticles st).particles = [] ∧ (clearParticles st).grid = st.grid ∧
      (clearParticles st).pal = st.pal) ∧
    (∀ q ∈ (addParticle cfg rand colour vx vy (clearParticles st)).particles,
      st.grid (pcell cfg q) = 0) ∧
    ((imgToParticles cfg rand (clearParticles st)).grid = st.grid ∧
      (imgToParticles cfg rand (clearParticles st)).pal = st.pal ∧
      (imgToParticles cfg rand (clearParticles st)).particles.map (pcell cfg) =
        ((scanOrder cfg).filter
          (fun xy => st.grid (xy.2 * cfg.gridWidth + xy.1) != 0)).map
          (fun xy => xy.2 * cfg.gridWidth + xy.1)) := by
  obtain ⟨ps0, G, P⟩ := st
  dsimp only at hcode hnb hnd ⊢
  have hclear : clearParticles ⟨ps0, G, P⟩ = ⟨[], G, P⟩ := rfl
  refine ⟨⟨rfl, rfl, rfl⟩, ?_, ?_⟩
  · intro q hq
    rw [hclear] at hq
    have hWb' : cfg.gridWidth ≤ 65536 :=
      le_trans (Nat.le_mul_of_pos_right _ (by omega)) hWs
    have hHb' : cfg.gridHeight ≤ 65536 :=
      le_trans (Nat.le_mul_of_pos_right _ (by omega)) hHs
    have hplace := placeLoop_lt cfg G rand hW hH hWb' hHb' hrand 2000 0
    rw [addParticle] at hq
    dsimp only at hq
    split_ifs at hq with hfree
    · have hro1 := hrand (placeLoop cfg G rand 2000 0).2.2 0 cfg.spaceMultiplier
        (by exact_mod_cast hsm)
      have hro2 := hrand ((placeLoop cfg G rand 2000 0).2.2 + 1) 0 cfg.spaceMultiplier
        (by exact_mod_cast hsm)
      rw [addParticleAt_eq cfg _ _ _ _ _ _ _ ⟨[], G, P⟩ hplace.1 hplace.2 hsm
        hro1 hro2 hWs hHs] at hq
      dsimp only at hq
      rcases List.mem_singleton.mp hq with rfl
      have hq2 : pcell cfg ⟨(placeLoop cfg G rand 2000 0).1 * cfg.spaceMultiplier +
          (rand (placeLoop cfg G rand 2000 0).2.2 0 cfg.spaceMultiplier).toNat,
          (placeLoop cfg G rand 2000 0).2.1 * cfg.spaceMultiplier +
          (rand ((placeLoop cfg G rand 2000 0).2.2 + 1) 0 cfg.spaceMultiplier).toNat,
          vx, vy⟩ =
          (placeLoop cfg G rand 2000 0).2.1 * cfg.gridWidth +
            (placeLoop cfg G rand 2000 0).1 := by
        unfold pcell cellIdx
        dsimp only
        rw [offset_div _ _ (by omega) (by omega), offset_div _ _ (by omega) (by omega)]
      rw [hq2]
      exact hfree
    · simp at hq
  · rw [hclear]
    have hspec := imgScan_spec cfg rand G P hsm hWs hHs hrand hcode hnb hnd
      (scanOrder cfg) 0 [] (scanOrder_mem cfg)
    refine ⟨hspec.1, hspec.2.1, ?_⟩
    have h3 := hspec.2.2
    simpa using h3

theorem C10_clear_frame_effect_witness :
    ((clearParticles ⟨[⟨0, 0, 0, 0⟩], fun i => if i = 3 then 1 else 0,
        [⟨9, 9, 9⟩]⟩).particles = [] ∧
      (clearParticles ⟨[⟨0, 0, 0, 0⟩], fun i => if i = 3 then 1 else 0,
        [⟨9, 9, 9⟩]⟩).grid = (fun i => if i = 3 then 1 else 0) ∧
      (clearParticles ⟨[⟨0, 0, 0, 0⟩], fun i => if i = 3 then 1 else 0,
        [⟨9, 9, 9⟩]⟩).pal = [⟨9, 9, 9⟩]) ∧
    (∀ q ∈ (addParticle (mkCfg 2 2 0 255) (fun _ a _ => a) ⟨7, 7, 7⟩ 0 0
        (clearParticles ⟨[⟨0, 0, 0, 0⟩], fun i => if i = 3 then 1 else 0,
          [⟨9, 9, 9⟩]⟩)).particles,
      (fun i => if i = 3 then 1 else 0 : Grid) (pcell (mkCfg 2 2 0 255) q) = 0) ∧
    ((imgToParticles (mkCfg 2 2 0 255) (fun _ a _ => a)
        (clearParticles ⟨[⟨0, 0, 0, 0⟩], fun i => if i = 3 then 1 else 0,
          [⟨9, 9, 9⟩]⟩)).grid = (fun i => if i = 3 then 1 else 0) ∧
      (imgToParticles (mkCfg 2 2 0 255) (fun _ a _ => a)
        (clearParticles ⟨[⟨0, 0, 0, 0⟩], fun i => if i = 3 then 1 else 0,
          [⟨9, 9, 9⟩]⟩)).pal = [⟨9, 9, 9⟩] ∧
      (imgToParticles (mkCfg 2 2 0 255) (fun _ a _ => a)
        (clearParticles ⟨[⟨0, 0, 0, 0⟩], fun i => if i = 3 then 1 else 0,
          [⟨9, 9, 9⟩]⟩)).particles.map (pcell (mkCfg 2 2 0 255)) =
        ((scanOrder (mkCfg 2 2 0 255)).filter
          (fun xy => (fun i => if i = 3 then 1 else 0 : Grid)
            (xy.2 * (mkCfg 2 2 0 255).gridWidth + xy.1) != 0)).map
          (fun xy => xy.2 * (mkCfg 2 2 0 255).gridWidth + xy.1)) :=
  C10_clear_frame_effect (mkCfg 2 2 0 255) (fun _ a _ => a) ⟨7, 7, 7⟩ 0 0
    ⟨[⟨0, 0, 0, 0⟩], fun i => if i = 3 then 1 else 0, [⟨9, 9, 9⟩]⟩
    (by decide) (by decide) (by decide) (by decide) (by decide)
    (fun _ a b h => ⟨le_refl a, h⟩)
    (by intro i; by_cases h : i = 3 <;> simp [h])
    (by decide) (by decide)

end RGBAnim
